import Mathlib

/-!
# A shallow embedding of the dbgcopilot core, with proofs about its spec

This file embeds, in Lean 4, the parts of the `dbgcopilot` repository that the
frozen claims C1..C10 are about:

* Python string helpers used by the code (strip, lower, split, splitlines,
  slicing), modelled on `List Char` / `String`;
* `src/src/dbgcopilot/utils/io.py` (`strip_ansi`, `head_tail_truncate`,
  `color_text`);
* `src/src/dbgcopilot/llm/params.py` (`_coerce_value`, `apply_params`,
  `_apply_path`, `canonicalize_param`);
* the `<cmd>` extraction regex shared by
  `src/src/dbgcopilot/core/orchestrator.py` and
  `src/dbgagent/src/dbgagent/runner.py`;
* `src/src/dbgcopilot/core/state.py` (`SessionState`, `Attempt`,
  `resolve_auto_round_limit`);
* the orchestrator turn loop of `src/src/dbgcopilot/core/orchestrator.py`
  (`ask`, `_handle_command_confirmation`, `_llm_turn`,
  `_execute_with_followup`, `_execute_once`, `_emit_chat`,
  `_format_confirmation_prompt`, `summary`, `_llm_summarize_session`);
* the `run_command` dispatch of the gdb / lldb / radare2 subprocess backends.

Modelling conventions.  Machine-level I/O is abstracted at function
boundaries: the pexpect / r2pipe child process is a deterministic oracle
(a function from the sent command to its captured result), LLM provider
clients are total functions from the composed prompt to the reply, and the
output sinks are presence flags whose deliveries are logged.  Side effects
(chatlog appends, provider calls, backend sends, sink deliveries) are
threaded through explicit state.  Python exceptions of a modelled function
are `Except`/`Option` results.  The unbounded mutual recursion between
`_llm_turn` and `_execute_with_followup` is modelled with a fuel parameter;
claims are proved for every fuel or at a fuel large enough for the concrete
run, and the fuel = 0 branch returns the empty reply with the state
untouched.
-/

set_option autoImplicit false

namespace DbgCopilot

/-! ## Python string primitives -/

/-- Whitespace characters removed by Python `str.strip()` (ASCII subset;
the Unicode whitespace set is not needed by any claim). -/
def isPyWhitespace (c : Char) : Bool :=
  c = ' ' || c = '\t' || c = '\n' || c = '\r' || c = '\x0b' || c = '\x0c'

/-- Python `str.strip()`. -/
def pyStrip (s : String) : String :=
  String.mk (((s.data.dropWhile isPyWhitespace).reverse.dropWhile isPyWhitespace).reverse)

/-- Python `str.lower()` (ASCII case mapping; all strings the code lowers
before comparing are ASCII). -/
def pyLower (s : String) : String :=
  String.mk (s.data.map Char.toLower)

/-- Python `s[:n]` on strings. -/
def pyTake (s : String) (n : Nat) : String :=
  String.mk (s.data.take n)

/-- Python `str.splitlines()` for the separators `\n`, `\r\n` and `\r`
(the exotic Unicode line separators are never produced by the code). -/
def pySplitlinesAux : List Char → List Char → List String
  | [], acc => if acc.isEmpty then [] else [String.mk acc.reverse]
  | '\r' :: '\n' :: rest, acc => String.mk acc.reverse :: pySplitlinesAux rest []
  | '\r' :: rest, acc => String.mk acc.reverse :: pySplitlinesAux rest []
  | '\n' :: rest, acc => String.mk acc.reverse :: pySplitlinesAux rest []
  | c :: rest, acc => pySplitlinesAux rest (c :: acc)

def pySplitlines (s : String) : List String :=
  pySplitlinesAux s.data []

/-- First index at which `needle` occurs in `hay`, if any. -/
def firstIdxOf (needle : List Char) : List Char → Option Nat
  | [] => if needle.isPrefixOf ([] : List Char) then some 0 else none
  | c :: rest =>
      if needle.isPrefixOf (c :: rest) then some 0
      else (firstIdxOf needle rest).map (· + 1)

/-- Python `needle in hay` on strings. -/
def containsSubstr (hay needle : String) : Bool :=
  (firstIdxOf needle.data hay.data).isSome

/-- Association-list get, mirroring Python `dict.get`. -/
def alGet {α : Type} (k : String) : List (String × α) → Option α
  | [] => none
  | (k2, v) :: rest => if k2 = k then some v else alGet k rest

/-- Association-list set, mirroring Python `dict[k] = v` (replace in place,
else append; insertion order is preserved as in CPython dicts). -/
def alSet {α : Type} (k : String) (v : α) : List (String × α) → List (String × α)
  | [] => [(k, v)]
  | (k2, v2) :: rest => if k2 = k then (k2, v) :: rest else (k2, v2) :: alSet k v rest

/-- Association-list removal, mirroring Python `dict.pop(k, None)`. -/
def alPop {α : Type} (k : String) : List (String × α) → List (String × α)
  | [] => []
  | (k2, v2) :: rest => if k2 = k then rest else (k2, v2) :: alPop k rest

/-- Python `xs[-n:]` on lists. -/
def takeLast {α : Type} (n : Nat) (xs : List α) : List α :=
  xs.drop (xs.length - n)

/-- Python `str.replace(old, new)` on char lists: replace every
non-overlapping occurrence left to right (`old` is non-empty at every use
site; `fuel` only bounds the recursion). -/
def pyReplaceAux (old new : List Char) : Nat → List Char → List Char
  | 0, cs => cs
  | fuel+1, cs =>
    match cs with
    | [] => []
    | c :: rest =>
      if old.isPrefixOf (c :: rest) then
        new ++ pyReplaceAux old new fuel ((c :: rest).drop old.length)
      else c :: pyReplaceAux old new fuel rest

/-- Python `str.replace(old, new)`. -/
def pyReplace (s old new : String) : String :=
  String.mk (pyReplaceAux old.data new.data s.data.length s.data)

/-- Python `str.split(sep)` for a single-character separator (every use
site splits on `\n`, `;`, `,` or `.`): empty pieces are kept and the
split of the empty string is `[""]`. -/
def splitOnCharAux (c : Char) : List Char → List Char → List (List Char)
  | [], acc => [acc.reverse]
  | x :: rest, acc =>
    if x = c then acc.reverse :: splitOnCharAux c rest []
    else splitOnCharAux c rest (x :: acc)

def pySplitOnChar (c : Char) (s : String) : List String :=
  (splitOnCharAux c s.data []).map String.mk

/-! ## utils/io.py -/

def isAnsiParamChar (c : Char) : Bool := c.isDigit || c = ';'

/-- One scan step of `ANSI_RE = re.compile(r"\x1b\[[0-9;]*[mK]")` removal;
`fuel` only bounds the recursion (each step consumes at least one char). -/
def stripAnsiAux : Nat → List Char → List Char
  | 0, cs => cs
  | fuel+1, cs =>
    match cs with
    | [] => []
    | '\x1b' :: '[' :: rest =>
        let ps := rest.takeWhile isAnsiParamChar
        let rest2 := rest.dropWhile isAnsiParamChar
        match rest2 with
        | 'm' :: tl => stripAnsiAux fuel tl
        | 'K' :: tl => stripAnsiAux fuel tl
        | _ => '\x1b' :: '[' :: (ps ++ stripAnsiAux fuel rest2)
    | c :: rest => c :: stripAnsiAux fuel rest

/-- `strip_ansi` from src/src/dbgcopilot/utils/io.py. -/
def stripAnsi (s : String) : String :=
  String.mk (stripAnsiAux s.data.length s.data)

/-- `head_tail_truncate` from src/src/dbgcopilot/utils/io.py.  Python
`s[-max_chars//2:]` keeps the last `ceil(max_chars/2)` characters because
`-max_chars // 2` floors toward minus infinity. -/
def headTailTruncate (s : String) (maxChars : Nat) : String :=
  if s.length ≤ maxChars then s
  else
    String.mk (s.data.take (maxChars / 2)) ++ "\n... [truncated] ...\n"
      ++ String.mk (s.data.drop (s.length - (maxChars + 1) / 2))

/-- The `_CODES` table from src/src/dbgcopilot/utils/io.py
(`\033` is the escape character). -/
def ansiCodes : List (String × String) :=
  [("reset", "\x1b[0m"), ("bold", "\x1b[1m"), ("faint", "\x1b[2m"),
   ("red", "\x1b[31m"), ("green", "\x1b[32m"), ("yellow", "\x1b[33m"),
   ("blue", "\x1b[34m"), ("magenta", "\x1b[35m"), ("cyan", "\x1b[36m"),
   ("gray", "\x1b[90m")]

/-- `color_text` from src/src/dbgcopilot/utils/io.py. -/
def colorText (s : String) (color : Option String) (bold : Bool) (enable : Bool) : String :=
  match color with
  | none => s
  | some c =>
    if !enable then s
    else
      match alGet c ansiCodes with
      | none => s
      | some code =>
          (if bold then "\x1b[1m" else "") ++ code ++ s ++ "\x1b[0m"

/-! ## The `<cmd>` directive regex

`re.search(r"<cmd>\s*([\s\S]*?)\s*</cmd>", text, re.IGNORECASE)` followed by
`match.group(1).strip()` is used at src/src/dbgcopilot/core/orchestrator.py
line 328 and at src/dbgagent/src/dbgagent/runner.py line 387.  The leftmost
match starts at the first case-insensitive `<cmd>` that is followed by a
`</cmd>`; the lazy group then ends at the first `</cmd>` after it, and the
`\s*` borders plus the final `.strip()` trim the captured text. -/

def extractCmdTag (s : String) : Option String :=
  let low := s.data.map Char.toLower
  match firstIdxOf "<cmd>".data low with
  | none => none
  | some i =>
    match firstIdxOf "</cmd>".data (low.drop (i + 5)) with
    | none => none
    | some j => some (pyStrip (String.mk ((s.data.drop (i + 5)).take j)))

/-- `re.sub(r"<cmd>[\s\S]*?</cmd>", "", raw_answer, flags=re.IGNORECASE)`:
remove every non-overlapping lazy match, scanning left to right.  `fuel`
only bounds the recursion (each removal consumes at least 11 chars). -/
def removeCmdTagsAux : Nat → List Char → List Char
  | 0, cs => cs
  | fuel+1, cs =>
    let low := cs.map Char.toLower
    match firstIdxOf "<cmd>".data low with
    | none => cs
    | some i =>
      match firstIdxOf "</cmd>".data (low.drop (i + 5)) with
      | none => cs
      | some j => cs.take i ++ removeCmdTagsAux fuel (cs.drop (i + 5 + j + 6))

/-- `CopilotOrchestrator._extract_explanation`. -/
def extractExplanation (s : String) : String :=
  pyStrip (String.mk (removeCmdTagsAux s.data.length s.data))

end DbgCopilot

namespace DbgCopilot

/-! ## llm/params.py

Python runtime values that flow through the parameter system are modelled
by `PyVal`.  Python floats are modelled as exact rationals; the theorems
that involve `float()` parsing carry hypotheses restricting the input to
decimal literals on which IEEE-754 rounding cannot change the truncated
integer result. -/

inductive PyVal where
  | pynone : PyVal
  | pybool : Bool → PyVal
  | pyint : Int → PyVal
  | pyfloat : Rat → PyVal
  | pystr : String → PyVal
  | pylist : List PyVal → PyVal
  | pydict : List (String × PyVal) → PyVal
deriving Repr

/-- Value of a list of decimal digit characters. -/
def digitsVal (ds : List Char) : Nat :=
  ds.foldl (fun a c => a * 10 + (c.toNat - '0'.toNat)) 0

/-- Python `int()` truncation toward zero of an exact rational. -/
def pyTruncRat (q : Rat) : Int :=
  q.num.tdiv q.den

/-- Python `float(text)` on a stripped string, restricted to finite decimal
literals `[+-]? digits [. digits]? ([eE] [+-]? digits)?` with at least one
mantissa digit (the underscore grouping and `inf`/`nan` forms are treated
as parse failures; no claim exercises them).  The result is the exact
rational value of the literal. -/
def parsePyFloat (s : String) : Option Rat :=
  let cs := s.data
  let (sign, cs) : Int × List Char :=
    match cs with
    | [] => (1, [])
    | c :: rest =>
      if c = '+' then (1, rest)
      else if c = '-' then (-1, rest)
      else (1, c :: rest)
  let intDigits := cs.takeWhile Char.isDigit
  let afterInt := cs.dropWhile Char.isDigit
  let (hasDot, fracDigits, afterFrac) : Bool × List Char × List Char :=
    match afterInt with
    | '.' :: r => (true, r.takeWhile Char.isDigit, r.dropWhile Char.isDigit)
    | _ => (false, [], afterInt)
  if intDigits.isEmpty ∧ (¬hasDot ∨ fracDigits.isEmpty) then none
  else
    let mantissa : Rat :=
      (digitsVal intDigits : Rat) + (digitsVal fracDigits : Rat) / ((10 : Rat) ^ fracDigits.length)
    match afterFrac with
    | [] => some ((sign : Rat) * mantissa)
    | e :: r =>
      if e = 'e' ∨ e = 'E' then
        let (esign, r2) : Int × List Char :=
          match r with
          | '+' :: r3 => (1, r3)
          | '-' :: r3 => (-1, r3)
          | _ => (1, r)
        let expDigits := r2.takeWhile Char.isDigit
        let afterExp := r2.dropWhile Char.isDigit
        if expDigits.isEmpty ∨ ¬afterExp.isEmpty then none
        else
          let scale : Rat :=
            if esign ≥ 0 then (10 : Rat) ^ digitsVal expDigits
            else 1 / ((10 : Rat) ^ digitsVal expDigits)
          some ((sign : Rat) * mantissa * scale)
      else none

/-- `_COMMON_ALIASES` from src/src/dbgcopilot/llm/params.py. -/
def commonAliases : List (String × String) :=
  [("temperature", "temperature"), ("temp", "temperature"),
   ("max_tokens", "max_tokens"), ("top_p", "top_p"), ("top_k", "top_k"),
   ("presence_penalty", "presence_penalty"),
   ("frequency_penalty", "frequency_penalty"), ("stop", "stop"),
   ("stop_sequences", "stop"), ("repeat_penalty", "extras.repeat_penalty"),
   ("mirostat", "extras.mirostat"), ("web_search", "extras.enable_web_search")]

def intBaseNames : List String := ["max_tokens", "top_k", "mirostat"]

def floatBaseNames : List String :=
  ["temperature", "top_p", "presence_penalty", "frequency_penalty", "repeat_penalty"]

def listBaseNames : List String := ["stop"]

def boolTrueLits : List String := ["true", "1", "yes", "on"]

def boolFalseLits : List String := ["false", "0", "no", "off"]

/-- Provider metadata as consumed by the parameter system
(the `param_aliases` mapping of a registry entry). -/
structure ProviderMeta where
  paramAliases : List (String × String)
deriving Repr

/-- `_alias_map`: the common aliases (keys lowered) updated with the
provider aliases (keys lowered, values stringified). -/
def aliasMap (meta : Option ProviderMeta) : List (String × String) :=
  let base := commonAliases.foldl (fun acc kv => alSet (pyLower kv.1) kv.2 acc) []
  match meta with
  | none => base
  | some m => m.paramAliases.foldl (fun acc kv => alSet (pyLower kv.1) kv.2 acc) base

/-- `canonicalize_param`: strip the name, fail on empty, then resolve the
lowered name through the alias map with the name itself as default. -/
def canonicalizeParam (meta : Option ProviderMeta) (param : String) :
    Except String (String × String) :=
  let name := pyStrip param
  if name = "" then .error "Parameter name is required"
  else
    let canonical :=
      match alGet (pyLower name) (aliasMap meta) with
      | some v => v
      | none => name
    .ok (canonical, name)

/-- Python `str(v)` on the scalar values that can appear in a JSON-parsed
list (only the `stop` JSON branch of `_coerce_value` uses it; no claim
exercises composite elements, whose repr is approximated). -/
def pyStrOf : PyVal → String
  | .pynone => "None"
  | .pybool true => "True"
  | .pybool false => "False"
  | .pyint i => toString i
  | .pyfloat q => toString q
  | .pystr s => s
  | .pylist _ => "[...]"
  | .pydict _ => "\x7b...\x7d"

/-- `_coerce_value` from src/src/dbgcopilot/llm/params.py.  `jsonLoads`
abstracts Python `json.loads` exactly at the two places the source calls
it (`none` models a parse exception); the returned `Bool` is the `cleared`
flag, and `Except.error` models the raised `ValueError`. -/
def coerceValue (jsonLoads : String → Option PyVal) (canonical : String) (rawValue : PyVal) :
    Except String (PyVal × Bool) :=
  match rawValue with
  | .pydict _ => .ok (rawValue, false)
  | .pylist _ => .ok (rawValue, false)
  | .pybool _ => .ok (rawValue, false)
  | .pynone => .ok (.pynone, true)
  | .pyint _ => .ok (rawValue, false)
  | .pyfloat _ => .ok (rawValue, false)
  | .pystr s =>
    let text := pyStrip s
    if text = "" then .ok (.pynone, true)
    else
      let lowered := pyLower text
      if lowered ∈ ["none", "null", "clear"] then .ok (.pynone, true)
      else if lowered ∈ boolTrueLits then .ok (.pybool true, false)
      else if lowered ∈ boolFalseLits then .ok (.pybool false, false)
      else
        let base := (pySplitOnChar '.' canonical).getLastD ""
        if base ∈ intBaseNames then
          match parsePyFloat text with
          | some q => .ok (.pyint (pyTruncRat q), false)
          | none => .error ("Expected integer value for " ++ canonical)
        else if base ∈ floatBaseNames then
          match parsePyFloat text with
          | some q => .ok (.pyfloat q, false)
          | none => .error ("Expected numeric value for " ++ canonical)
        else if base ∈ listBaseNames then
          let fromJson : Option (List PyVal) :=
            if text.startsWith "[" then
              match jsonLoads text with
              | some (.pylist xs) => some xs
              | _ => none
            else none
          match fromJson with
          | some xs => .ok (.pylist (xs.map (fun v => .pystr (pyStrOf v))), false)
          | none =>
            if text.startsWith "[" ∧ (jsonLoads text).isNone then
              .error ("Invalid list value for " ++ canonical)
            else
              let parts := ((pySplitOnChar ',' text).map pyStrip).filter (· ≠ "")
              if parts.isEmpty then .ok (.pylist [.pystr text], false)
              else .ok (.pylist (parts.map PyVal.pystr), false)
        else
          if text.startsWith "\x7b" ∨ text.startsWith "[" then
            match jsonLoads text with
            | some v => .ok (v, false)
            | none => .ok (.pystr text, false)
          else .ok (.pystr text, false)

/-- `_apply_path` on the already-split non-empty segments: walk the path,
creating (or overwriting non-dict values with) intermediate maps, then
assign the leaf; a `None` value removes the leaf instead, and a string
assigned to a leaf named `stop` is wrapped into a singleton list. -/
def applyPathParts : List (String × PyVal) → List String → PyVal → List (String × PyVal)
  | target, [], _ => target
  | target, [leaf], value =>
    match value with
    | .pynone => alPop leaf target
    | _ =>
      let v :=
        if leaf = "stop" then
          match value with
          | .pystr s => PyVal.pylist [.pystr s]
          | _ => value
        else value
      alSet leaf v target
  | target, seg :: rest, value =>
    let child :=
      match alGet seg target with
      | some (.pydict d) => d
      | _ => []
    alSet seg (.pydict (applyPathParts child rest value)) target

/-- `_apply_path` from src/src/dbgcopilot/llm/params.py. -/
def applyPath (target : List (String × PyVal)) (canonical : String) (value : PyVal) :
    List (String × PyVal) :=
  applyPathParts target ((pySplitOnChar '.' canonical).filter (· ≠ "")) value

/-- `apply_params` from src/src/dbgcopilot/llm/params.py; the request body
and the parameter mapping are insertion-ordered dicts. -/
def applyParams (body : List (String × PyVal)) (params : List (String × PyVal))
    (meta : Option ProviderMeta) (assumeCanonical : Bool) :
    Except String (List (String × PyVal)) :=
  params.foldlM
    (fun acc kv => do
      let canonical ←
        if assumeCanonical then pure kv.1
        else (canonicalizeParam meta kv.1).map (·.1)
      pure (applyPath acc canonical kv.2))
    body

/-- Read a nested value out of a body along a path of keys. -/
def lookupPath : List (String × PyVal) → List String → Option PyVal
  | _, [] => none
  | body, [leaf] => alGet leaf body
  | body, seg :: rest =>
    match alGet seg body with
    | some (.pydict d) => lookupPath d rest
    | _ => none

end DbgCopilot

namespace DbgCopilot

/-! ## core/state.py -/

/-- Python `int(raw)` on strings: optional sign plus decimal digits
(surrounding whitespace stripped). -/
def pyParseInt (s : String) : Option Int :=
  let t := pyStrip s
  let (sign, ds) : Int × List Char :=
    match t.data with
    | '+' :: rest => (1, rest)
    | '-' :: rest => (-1, rest)
    | cs => (1, cs)
  if ds.isEmpty ∨ ¬(ds.all Char.isDigit) then none
  else some (sign * digitsVal ds)

def DEFAULT_AUTO_ROUND_LIMIT : Nat := 64

/-- `resolve_auto_round_limit` from src/src/dbgcopilot/core/state.py. -/
def resolveAutoRoundLimit (config : List (String × String)) : Int :=
  let tryKey (key : String) : Option Int :=
    match alGet key config with
    | none => none
    | some raw =>
      match pyParseInt raw with
      | none => none
      | some limit => if limit > 0 then some limit else none
  match tryKey "auto_round_limit" with
  | some l => l
  | none =>
    match tryKey "auto_rounds_limit" with
    | some l => l
    | none => (DEFAULT_AUTO_ROUND_LIMIT : Int)

/-- `Attempt` from src/src/dbgcopilot/core/state.py. -/
structure Attempt where
  cmd : String
  output_snippet : String := ""
deriving Repr, DecidableEq

/-- One `command_proposal` chat event
(orchestrator.py `_format_confirmation_prompt`). -/
structure ChatEvent where
  etype : String
  command : String
  label : String
  explanation : Option String
deriving Repr, DecidableEq

/-- `SessionState` from src/src/dbgcopilot/core/state.py.  The two output
sinks are modelled by presence flags (a present sink is a callback that
always succeeds; its deliveries are recorded in `OrchEff`); the unused
scaffolding fields `provider_name`, `provider_api_key`, `model_override`
and the sink callbacks themselves are not represented. -/
structure SessionState where
  session_id : String
  goal : String := ""
  facts : List String := []
  chatlog : List String := []
  attempts : List Attempt := []
  last_output : String := ""
  config : List (String × String) := []
  colors_enabled : Bool := true
  selected_provider : Option String := none
  pending_command : Option String := none
  auto_accept_commands : Bool := false
  pending_outputs : List String := []
  has_debugger_output_sink : Bool := false
  pending_chat : List String := []
  has_chat_output_sink : Bool := false
  last_answer_streamed : Bool := false
  pending_chat_events : List ChatEvent := []
  auto_rounds_remaining : Option Int := none
  auto_loop_depth : Nat := 0
deriving Repr, DecidableEq

/-! ## core/orchestrator.py -/

/-- The observable effects of one orchestrator entry: the session state
plus the logs of provider calls (prompts sent), backend command
executions, and sink deliveries. -/
structure OrchEff where
  st : SessionState
  providerCalls : List String := []
  backendCalls : List String := []
  chatSinkOut : List String := []
  debugSinkOut : List String := []
deriving Repr, DecidableEq

/-- The prompt configuration fields `_llm_turn` reads
(`self.prompt_config`).  `systemPreambleFor` is the `system_preamble`
template with `.format(debugger=...)` applied, modelled as a function of
the debugger name. -/
structure PromptCfg where
  systemPreambleFor : String → String
  assistantCmdTagInstructions : String
  rules : List String
  languageHintZh : String
  maxContextChars : Nat

/-- `int(self.prompt_config.get("max_context_chars", 16000))`. -/
def defaultMaxContextChars : Nat := 16000

/-- The orchestrator environment: the backend name, the prompt config, the
provider registry (`providers.get_provider` composed with
`create_client` / `ask`, modelled as a total reply function per registered
name), the backend `run_command`, the fresh id produced by
`str(uuid.uuid4())[:8]`, and `_call_llm` as used by
`_llm_summarize_session` (`none` models a raised exception). -/
structure OrchEnv where
  dbgName : String
  cfg : PromptCfg
  providers : String → Option (String → String)
  backendRun : String → String
  freshSessionId : String
  summarizeAsk : String → String → Option String

/-- `pname = getattr(self.state, "selected_provider", None) or
self.state.config.get("llm_provider")` (Python `or` skips the empty
string). -/
def resolveProviderName (st : SessionState) : Option String :=
  match st.selected_provider with
  | some s => if s ≠ "" then some s else alGet "llm_provider" st.config
  | none => alGet "llm_provider" st.config

/-- `_wants_chinese` from src/src/dbgcopilot/core/orchestrator.py. -/
def wantsChinese (text : String) : Bool :=
  let t := pyLower text
  (["in chinese", "中文", "用中文", "中文回答", "请用中文", "中文解释"].any
    (fun k => containsSubstr t k))
  || text.data.any (fun c => 0x4e00 ≤ c.toNat ∧ c.toNat ≤ 0x9fff)

def readyMsg : String := "I\x27m ready to help. Ask anything about your debug session."

def overflowPromptMsg : String :=
  "Your session context is quite large. Would you like me to summarize the "
  ++ "current session and start a new one from that summary, or start a fresh session "
  ++ "without a summary? Reply with \x27summarize and new session\x27 or \x27new session\x27."

/-- `"\n".join(f"- {a.cmd}: {a.output_snippet}" for a in attempts if ...)`
over `attempts[-5:]`. -/
def attemptsTxt (attempts : List Attempt) : String :=
  String.intercalate "\n"
    (((takeLast 5 attempts).filter (fun a => a.output_snippet ≠ "")).map
      (fun a => "- " ++ a.cmd ++ ": " ++ a.output_snippet))

/-- The `primed_question` composed by `_llm_turn` (orchestrator.py lines
269-301) for a given session state and raw user text. -/
def primedQuestion (env : OrchEnv) (st : SessionState) (question : String) : String :=
  let dbg := env.dbgName
  let goal := pyStrip st.goal
  let aTxt := attemptsTxt st.attempts
  let lastOut := headTailTruncate st.last_output 2000
  let rulesLines := String.intercalate "\n" (env.cfg.rules.map (fun r => "- " ++ r))
  let systemPreamble :=
    env.cfg.systemPreambleFor dbg ++ env.cfg.assistantCmdTagInstructions
      ++ (if rulesLines ≠ "" then "Rules:\n" ++ rulesLines ++ "\n" else "")
  let contextBlock :=
    (if goal ≠ "" then "Goal: " ++ goal ++ "\n" else "")
    ++ (if aTxt ≠ "" then "Recent commands and snippets:\n" ++ aTxt ++ "\n" else "")
    ++ (if lastOut ≠ "" then "Last output:\n" ++ lastOut ++ "\n" else "")
    ++ (if st.chatlog ≠ [] then
          "\nFull conversation so far:\n" ++ String.intercalate "\n" st.chatlog ++ "\n"
        else "")
  let langHint := if wantsChinese question then env.cfg.languageHintZh else ""
  systemPreamble
    ++ (if contextBlock ≠ "" then "\n" ++ contextBlock else "")
    ++ (if langHint ≠ "" then "\n" ++ langHint else "")
    ++ "\nUser: " ++ pyStrip question ++ "\nAssistant:"

/-- `CopilotOrchestrator.summary`.  `getattr(self.state,
"selected_provider", "(none)")` finds the attribute (default `None` in the
dataclass), so an unset provider renders as Python `str(None)`. -/
def sessionSummary (env : OrchEnv) (st : SessionState) : String :=
  let dbg := env.dbgName
  let provider := match st.selected_provider with | some s => s | none => "None"
  let goal := pyStrip st.goal
  let aTxt := String.intercalate "\n"
    (((takeLast 5 st.attempts).filter (fun a => a.cmd ≠ "")).map
      (fun a => "  - " ++ a.cmd ++ ": " ++ pyTake a.output_snippet 120))
  let qaLines := st.facts.filter (fun l => l.startsWith "Q:" || l.startsWith "A:")
  let qaTxt := String.intercalate "\n" ((takeLast 6 qaLines).map (fun l => "  " ++ l))
  let lastOut := headTailTruncate st.last_output 400
  let parts :=
    ["Session " ++ st.session_id, "Debugger: " ++ dbg, "Provider: " ++ provider]
    ++ (if goal ≠ "" then ["Goal: " ++ goal] else [])
    ++ (if aTxt ≠ "" then ["Recent commands:", aTxt] else [])
    ++ (if lastOut ≠ "" then ["Last output:", "  " ++ pyReplace lastOut "\n" "\n  "] else [])
    ++ (if qaTxt ≠ "" then ["Recent chat:", qaTxt] else [])
  String.intercalate "\n" parts

/-- `_llm_summarize_session`: compose the trimmed summarization prompt,
attempt `_call_llm` (whose client construction is abstracted by
`env.summarizeAsk`; a raised exception is `none` and falls back to the
local `summary()`).  Returns the summary together with the list of prompts
sent to the provider. -/
def llmSummarizeSession (env : OrchEnv) (st : SessionState) : String × List String :=
  let goal := pyStrip st.goal
  let aTxt := attemptsTxt st.attempts
  let lastOut := headTailTruncate st.last_output 1200
  let chatTxt := String.intercalate "\n" (takeLast 40 st.chatlog)
  let prompt :=
    "You are a helpful debugging assistant. Produce a concise summary of the session below.\n"
    ++ "Keep it to 5-8 bullet points, plus one short suggested next step if relevant.\n"
    ++ "Do NOT include any preamble or extra text; output only the summary text.\n\n"
    ++ (if goal ≠ "" then "Goal: " ++ goal ++ "\n" else "")
    ++ (if aTxt ≠ "" then "Recent commands and snippets:\n" ++ aTxt ++ "\n" else "")
    ++ (if lastOut ≠ "" then "Last output (truncated):\n" ++ lastOut ++ "\n" else "")
    ++ (if chatTxt ≠ "" then "Recent chat (tail):\n" ++ chatTxt ++ "\n" else "")
    ++ "\nSummary:"
  match resolveProviderName st with
  | some p =>
    if p ≠ "" then
      match env.summarizeAsk p prompt with
      | some r => (r, [prompt])
      | none => (sessionSummary env st, [prompt])
    else (sessionSummary env st, [])
  | none => (sessionSummary env st, [])

/-- `CopilotOrchestrator._emit_chat`. -/
def emitChat (eff : OrchEff) (text : String) (color : Option String) : Bool × OrchEff :=
  if text = "" then
    (false, { eff with st := { eff.st with last_answer_streamed := false } })
  else
    let colorsEnabled := eff.st.colors_enabled
    let payload :=
      match color with
      | some c =>
        if colorsEnabled then
          if stripAnsi text = text then colorText text (some c) false colorsEnabled else text
        else text
      | none => text
    if eff.st.has_chat_output_sink then
      (true, { eff with chatSinkOut := eff.chatSinkOut ++ [payload],
                        st := { eff.st with last_answer_streamed := true } })
    else
      (true, { eff with st := { eff.st with pending_chat := eff.st.pending_chat ++ [payload],
                                            last_answer_streamed := true } })

/-- `_prefix_dbg_echo` from src/src/dbgcopilot/core/orchestrator.py. -/
def prefixDbgEcho (cmd : String) (label : String) (colors : Bool) : String :=
  let line := label ++ "> " ++ cmd
  if colors then colorText line (some "cyan") true true else line

/-- `CopilotOrchestrator._format_confirmation_prompt`: assemble the
confirmation text and queue the `command_proposal` chat event. -/
def formatConfirmationPrompt (env : OrchEnv) (eff : OrchEff) (rawAnswer command : String) :
    String × OrchEff :=
  let colors := eff.st.colors_enabled
  let explanation := extractExplanation rawAnswer
  let label := if env.dbgName ≠ "" then env.dbgName else "debugger"
  let parts :=
    (if explanation ≠ "" then [colorText explanation (some "green") false colors] else [])
    ++ ["Proposed debugger command:", prefixDbgEcho command label colors,
        "Run it? (y(es)/n(o)/a(uto yes))"]
  let proposal : ChatEvent :=
    { etype := "command_proposal", command := command, label := label,
      explanation := if explanation ≠ "" then some (stripAnsi explanation) else none }
  (String.intercalate "\n" parts,
   { eff with st := { eff.st with pending_chat_events := eff.st.pending_chat_events ++ [proposal] } })

/-- `_execute_and_format`: run the command and place the colored
`<backend>> <cmd>` echo line in front of the output (the backend call is a
total oracle, so the error branch is not exercised). -/
def executeAndFormat (env : OrchEnv) (cmd : String) (colors : Bool) : String :=
  let out := env.backendRun cmd
  let label := if env.dbgName ≠ "" then env.dbgName else "debugger"
  let echoed := prefixDbgEcho cmd label colors
  if out ≠ "" then echoed ++ "\n" ++ out else echoed

/-- `_execute_once` from src/src/dbgcopilot/core/orchestrator.py: execute,
record `last_output` / `attempts` / chatlog, deliver to the debugger sink
or buffer in `pending_outputs`, and append the first output line to
`facts`. -/
def executeOnce (env : OrchEnv) (eff : OrchEff) (execCmd : String) :
    (String × Bool) × OrchEff :=
  let colors := eff.st.colors_enabled
  let out := executeAndFormat env execCmd colors
  let eff := { eff with backendCalls := eff.backendCalls ++ [execCmd] }
  let st := { eff.st with
    last_output := out,
    attempts := eff.st.attempts ++ [{ cmd := execCmd, output_snippet := pyTake out 160 }],
    chatlog := eff.st.chatlog ++ ["Assistant: (executed) " ++ execCmd ++ "\n" ++ out] }
  let streamed : Bool := st.has_debugger_output_sink
  let eff :=
    if st.has_debugger_output_sink then
      { eff with st := st, debugSinkOut := eff.debugSinkOut ++ [out] }
    else { eff with st := st }
  let eff :=
    if out ≠ "" then
      let eff :=
        if ¬streamed then
          { eff with st := { eff.st with pending_outputs := eff.st.pending_outputs ++ [out] } }
        else eff
      { eff with st := { eff.st with
          facts := eff.st.facts ++ ["O: " ++ ((pySplitlines out).headD "")] } }
    else eff
  ((out, streamed), eff)

/-- `CopilotOrchestrator._build_followup_prompt` (the `"\n".join` of the
four fixed parts is written as one appended string). -/
def buildFollowupPrompt (command execOutput : String) : String :=
  let plain := stripAnsi execOutput
  "The debugger command `" ++ command ++ "` was executed.\n"
  ++ "Debugger output:\n"
  ++ (if plain ≠ "" then plain else "(no output)") ++ "\n"
  ++ "What should we do next? Remember to wrap any future debugger commands inside <cmd>...</cmd>."

/-- `CopilotOrchestrator._execute_with_followup`, with the nested
`_llm_turn` call abstracted as `turn` (instantiated with the fueled turn
function below). -/
def executeWithFollowupCore (env : OrchEnv) (turn : String → OrchEff → String × OrchEff)
    (command : String) (preface : Option String) (eff : OrchEff) : String × OrchEff :=
  let segs0 : List String :=
    match preface with
    | some p =>
      if p ≠ "" ∧ ¬eff.st.last_answer_streamed then
        [if eff.st.colors_enabled then colorText p (some "green") false true else p]
      else []
    | none => []
  let r := executeOnce env eff command
  let execOutput := r.1.1
  let streamed := r.1.2
  let eff := r.2
  let segs1 := segs0 ++ (if execOutput ≠ "" ∧ ¬streamed then [execOutput] else [])
  let t := turn (buildFollowupPrompt command execOutput) eff
  let followup := t.1
  let eff := t.2
  let segs := segs1 ++ (if followup ≠ "" ∧ ¬eff.st.last_answer_streamed then [followup] else [])
  (String.intercalate "\n" (segs.filter (· ≠ "")), eff)

/-- The provider-dispatch tail of `_llm_turn` (orchestrator.py lines
294-340), reached when the overflow guard did not fire and a registered
provider client was built: compose the primed question, call the client,
record the user/assistant chatlog lines and the Q/A facts, stream the
explanation in auto mode, then extract the `<cmd>` directive and either
execute with followup (auto), stash a pending command with a
confirmation prompt (manual), or return the color-wrapped reply.  The
nested `_llm_turn` call is abstracted as `turn`. -/
def llmTurnDispatch (env : OrchEnv) (turn : String → OrchEff → String × OrchEff)
    (question : String) (client : String → String) (eff : OrchEff) : String × OrchEff :=
  let primed := primedQuestion env eff.st question
  let answer := client primed
  let eff := { eff with providerCalls := eff.providerCalls ++ [primed] }
  let st := { eff.st with
    chatlog := eff.st.chatlog
      ++ ["User: " ++ pyStrip question, "Assistant: " ++ pyStrip answer],
    facts := eff.st.facts
      ++ ["Q: " ++ pyStrip question,
          "A: " ++ pyStrip ((pySplitlines answer).headD "")] }
  let eff := { eff with st := st }
  let explanation := extractExplanation answer
  let displayText := pyStrip (if explanation ≠ "" then explanation else answer)
  let autoMode := eff.st.auto_accept_commands
  let streamed :=
    if autoMode ∧ displayText ≠ "" then (emitChat eff displayText (some "green")).1
    else false
  let eff :=
    if autoMode ∧ displayText ≠ "" then (emitChat eff displayText (some "green")).2
    else eff
  match extractCmdTag answer with
  | some execCmd =>
    if autoMode then
      executeWithFollowupCore env turn execCmd
        (if displayText ≠ "" then some displayText else none) eff
    else
      let eff := { eff with st := { eff.st with pending_command := some execCmd } }
      formatConfirmationPrompt env eff answer execCmd
  | none =>
    let colors := eff.st.colors_enabled
    let result := if colors then colorText answer (some "green") false colors else answer
    if autoMode ∧ streamed ∧ eff.st.last_answer_streamed then ("", eff)
    else (result, eff)

/-- `CopilotOrchestrator._llm_turn` (orchestrator.py lines 217-351).  The
fuel bounds the recursion depth through `_execute_with_followup`; at fuel
zero the nested turn returns the empty reply and leaves the state as it
is (Python has no such bound, so theorems hold for every fuel or use a
fuel large enough for the run at hand). -/
def llmTurn (env : OrchEnv) : Nat → String → OrchEff → String × OrchEff
  | 0, _question, eff => ("", eff)
  | fuel+1, question, eff =>
    let text := pyStrip question
    let eff := { eff with st := { eff.st with last_answer_streamed := false } }
    let prevLines := eff.st.chatlog ++ ["User: " ++ text]
    let maxCtx := env.cfg.maxContextChars
    let transcriptForLlm := String.intercalate "\n" prevLines
    if transcriptForLlm.length > maxCtx then
      let choice := pyLower text
      if choice = "summarize and new session" ∨ choice = "summarise and new session" then
        let prevSummary := (llmSummarizeSession env eff.st).1
        let eff := { eff with
          providerCalls := eff.providerCalls ++ (llmSummarizeSession env eff.st).2 }
        let st := { eff.st with
          session_id := env.freshSessionId, chatlog := [], attempts := [],
          facts := [], last_output := "" }
        let st :=
          if prevSummary ≠ "" then
            { st with facts := st.facts
                ++ ["Summary: " ++ pyTake ((pySplitlines prevSummary).headD "") 160] }
          else st
        ("Started a new session: " ++ st.session_id
          ++ "\nHere is a brief summary of the previous session for reference:\n"
          ++ prevSummary,
         { eff with st := st })
      else if choice = "new session" ∨ choice = "start new session" ∨ choice = "new" then
        let st := { eff.st with
          session_id := env.freshSessionId, chatlog := [], attempts := [],
          facts := [], last_output := "" }
        ("Started a fresh session: " ++ st.session_id, { eff with st := st })
      else
        (overflowPromptMsg, eff)
    else
      match resolveProviderName eff.st with
      | none => (readyMsg, eff)
      | some pname =>
        if pname = "" then (readyMsg, eff)
        else
          match env.providers pname with
          | none => (readyMsg, eff)
          | some client =>
            llmTurnDispatch env (fun q e => llmTurn env fuel q e) question client eff

/-- `CopilotOrchestrator._execute_with_followup` with its nested
`_llm_turn` given `fuel` recursion budget. -/
def executeWithFollowup (env : OrchEnv) (fuel : Nat) (command : String)
    (preface : Option String) (eff : OrchEff) : String × OrchEff :=
  executeWithFollowupCore env (fun q e => llmTurn env fuel q e) command preface eff

/-- `CopilotOrchestrator._handle_command_confirmation`. -/
def handleCommandConfirmation (env : OrchEnv) (fuel : Nat) (reply : String) (eff : OrchEff) :
    String × OrchEff :=
  let cmd := eff.st.pending_command
  let eff := { eff with st := { eff.st with pending_command := none } }
  match cmd with
  | none => llmTurn env fuel reply eff
  | some c =>
    if c = "" then llmTurn env fuel reply eff
    else
      let choice := pyLower (pyStrip reply)
      if choice = "y" ∨ choice = "yes" then executeWithFollowup env fuel c none eff
      else if choice = "a" ∨ choice = "auto" ∨ choice = "auto yes" ∨ choice = "auto-yes" then
        let eff := { eff with st := { eff.st with
          auto_accept_commands := true,
          config := alSet "auto_accept_commands" "true" eff.st.config } }
        let r := executeWithFollowup env fuel c none eff
        let pfx := "Auto-accept enabled for this session."
        (if r.1 ≠ "" then pfx ++ "\n" ++ r.1 else pfx, r.2)
      else ("Command skipped.", eff)

/-- `CopilotOrchestrator.ask`: strip the text, then dispatch to the
confirmation handler when a (truthy, that is, non-empty) pending command
exists, else to the turn loop. -/
def ask (env : OrchEnv) (fuel : Nat) (question : String) (eff : OrchEff) : String × OrchEff :=
  let text := pyStrip question
  match eff.st.pending_command with
  | some c => if c ≠ "" then handleCommandConfirmation env fuel text eff
              else llmTurn env fuel text eff
  | none => llmTurn env fuel text eff

end DbgCopilot

namespace DbgCopilot

/-! ## backends: gdb_subprocess.py, lldb_subprocess.py, radare2_subprocess.py

Each backend is modelled at the boundary of its child-process interaction:
the pexpect `_send_and_capture` (respectively the r2pipe `_r2.cmd`) is a
deterministic oracle from the sent command to its captured result, and
every command actually written to the child is collected in a `sends`
list.  All models assume an initialized backend (the source raises
`RuntimeError` before doing anything when the child is absent). -/

/-- Outcome of one pexpect `_send_and_capture` call as observed by the gdb
`run_command` loop (`ok` is a normal capture; the others are the caught
`pexpect.TIMEOUT` / `pexpect.EOF` / generic exceptions with their rendered
message). -/
inductive SendOutcome where
  | ok (out : String)
  | timedOut (msg : String)
  | eom (msg : String)
  | failed (msg : String)
deriving Repr, DecidableEq

/-- The gdb child oracle: `send` is `_send_and_capture`, `exitRestart` is
the message produced by `_handle_exit_command` (which sends the exit
command and then force-closes and restarts the child). -/
structure GdbEnv where
  send : String → SendOutcome
  exitRestart : String → String

/-- The shared command splitter of gdb `run_command`: split on newlines
(after `\r` normalization) and `;`, strip and drop empties, and fall back
to `[cmd.strip()]` when nothing remains. -/
def gdbSplitParts (cmd : String) : List String :=
  let parts :=
    (pySplitOnChar '\n' (pyReplace cmd "\r" "\n")).flatMap
      (fun chunk => (((pySplitOnChar ';' chunk).map pyStrip).filter (· ≠ "")))
  if parts = [] then [pyStrip cmd] else parts

def gdbExitCommands : List String := ["quit", "exit", "q"]

/-- The per-part loop of `GdbSubprocessBackend.run_command`; returns the
collected outputs and the commands sent to the child. -/
def gdbRunLoop (env : GdbEnv) : List String → List String × List String
  | [] => ([], [])
  | part :: rest =>
    if pyLower part ∈ gdbExitCommands then
      let msg := env.exitRestart part
      ((if msg ≠ "" then [msg] else []), [part])
    else
      match env.send part with
      | .ok out =>
        let (os, ss) := gdbRunLoop env rest
        ((pyReplace out "\r\n" "\n") :: os, part :: ss)
      | .timedOut m =>
        let (os, ss) := gdbRunLoop env rest
        (("[gdb timeout] " ++ part ++ ": " ++ m) :: os, part :: ss)
      | .eom m => (["[gdb eof] " ++ part ++ ": " ++ m], [part])
      | .failed m =>
        let (os, ss) := gdbRunLoop env rest
        (("[gdb error] " ++ part ++ ": " ++ m) :: os, part :: ss)

/-- `GdbSubprocessBackend.run_command` (src/src/dbgcopilot/backends/
gdb_subprocess.py lines 85-116): the returned string plus the list of
commands sent to the gdb child. -/
def gdbRunCommand (env : GdbEnv) (cmd : String) : String × List String :=
  let (outputs, sends) := gdbRunLoop env (gdbSplitParts cmd)
  (String.intercalate "\n" (outputs.filter (· ≠ "")), sends)

/-- The lldb reliability-hint counters
(`_empty_count` / `_suggested_once`). -/
structure LldbState where
  emptyCount : Nat
  suggestedOnce : Bool
deriving Repr, DecidableEq

/-- The lldb child oracle (`send` is `_send_and_capture`, which catches
timeout/EOF internally and can itself return a `[lldb timeout]` string;
`hint` is the platform string of `_install_hint`). -/
structure LldbEnv where
  send : String → SendOutcome
  hint : String

/-- The command splitter of `LldbSubprocessBackend.run_command`: a command
starting (case-insensitively) with `script ` is kept whole; otherwise
split like gdb with fallback `[raw]`. -/
def lldbSplitParts (cmd : String) : List String :=
  let raw := pyStrip cmd
  if (pyLower raw).startsWith "script " then [raw]
  else
    let parts :=
      (pySplitOnChar '\n' (pyReplace raw "\r" "\n")).flatMap
        (fun chunk => (((pySplitOnChar ';' chunk).map pyStrip).filter (· ≠ "")))
    if parts = [] then [raw] else parts

/-- The per-part loop of `LldbSubprocessBackend.run_command`. -/
def lldbRunLoop (env : LldbEnv) : List String → LldbState → List String × LldbState × List String
  | [], st => ([], st, [])
  | part :: rest, st =>
    match env.send part with
    | .timedOut _ =>
      let st := { st with emptyCount := st.emptyCount + 1 }
      let (os, st, ss) := lldbRunLoop env rest st
      (("[lldb timeout] " ++ part ++ ": Timeout exceeded.") :: os, st, part :: ss)
    | .eom m => (["[lldb eof] " ++ part ++ ": " ++ m], st, [part])
    | .failed m =>
      let (os, st, ss) := lldbRunLoop env rest st
      (("[lldb error] " ++ part ++ ": " ++ m) :: os, st, part :: ss)
    | .ok out =>
      let norm := pyReplace out "\r\n" "\n"
      if norm.startsWith "[lldb timeout]" then
        let st := { st with emptyCount := st.emptyCount + 1 }
        let (os, st, ss) := lldbRunLoop env rest st
        (norm :: os, st, part :: ss)
      else
        let st :=
          if pyStrip norm ≠ "" then { st with emptyCount := 0 }
          else { st with emptyCount := st.emptyCount + 1 }
        let (os, st, ss) := lldbRunLoop env rest st
        (norm :: os, st, part :: ss)

/-- `LldbSubprocessBackend.run_command` (src/src/dbgcopilot/backends/
lldb_subprocess.py lines 165-219), including the one-shot reliability hint
at `_empty_threshold = 2`. -/
def lldbRunCommand (env : LldbEnv) (st : LldbState) (cmd : String) :
    String × LldbState × List String :=
  let (outputs, st, sends) := lldbRunLoop env (lldbSplitParts cmd) st
  let rendered := String.intercalate "\n" (outputs.filter (· ≠ ""))
  if ¬st.suggestedOnce ∧ st.emptyCount ≥ 2 then
    let st := { st with suggestedOnce := true }
    let suggest := String.intercalate "\n"
      ["[copilot] Observed consecutive empty/timeout outputs from LLDB subprocess.",
       "For more reliable capture, try the LLDB Python API backend (preferred).",
       env.hint,
       "If you\x27re inside LLDB, prefer the in-process plugin:",
       "  (lldb) command script import dbgcopilot.plugins.lldb.copilot_cmd; copilot"]
    ((rendered ++ (if rendered ≠ "" then "\n" else "")) ++ suggest, st, sends)
  else (rendered, st, sends)

/-- Result of one r2pipe `self._r2.cmd(part)` call inside `_execute`
(`errRuntime` / `errOther` model a raised `RuntimeError` / other
exception rendered as `msg`). -/
inductive R2CmdOutcome where
  | ok (out : String)
  | errRuntime (msg : String)
  | errOther (msg : String)
deriving Repr, DecidableEq

/-- One scan step of `_CSI_PRIVATE_MODE_RE = re.compile
(r"\x1b\[\?[0-9;]*[hl]")` removal. -/
def stripCsiPrivateAux : Nat → List Char → List Char
  | 0, cs => cs
  | fuel+1, cs =>
    match cs with
    | [] => []
    | '\x1b' :: '[' :: '?' :: rest =>
        let ps := rest.takeWhile isAnsiParamChar
        let rest2 := rest.dropWhile isAnsiParamChar
        match rest2 with
        | 'h' :: tl => stripCsiPrivateAux fuel tl
        | 'l' :: tl => stripCsiPrivateAux fuel tl
        | _ => '\x1b' :: '[' :: '?' :: (ps ++ stripCsiPrivateAux fuel rest2)
    | c :: rest => c :: stripCsiPrivateAux fuel rest

def stripCsiPrivate (s : String) : String :=
  String.mk (stripCsiPrivateAux s.data.length s.data)

/-- `Radare2SubprocessBackend._sanitize_output`. -/
def r2Sanitize (text : String) : String :=
  if text = "" then ""
  else
    let cleaned := pyReplace (stripCsiPrivate text) "\r" ""
    let lines := pySplitlines cleaned
    let lines := lines.dropWhile (fun l => pyStrip l = "")
    let lines := (lines.reverse.dropWhile (fun l => pyStrip l = "")).reverse
    String.intercalate "\n" lines

/-- `Radare2SubprocessBackend._merge_output`. -/
def r2MergeOutput (chunks : List String) : String :=
  String.intercalate "\n" (chunks.filter (· ≠ ""))

/-- `Radare2SubprocessBackend._split_commands`. -/
def r2SplitCommands (text : String) : List String :=
  let pieces :=
    (pySplitOnChar '\n' (pyReplace text "\r" "\n")).flatMap
      (fun seg => (((pySplitOnChar ';' seg).map pyStrip).filter (· ≠ "")))
  if pieces = [] then [text] else pieces

def r2ExitCommands : List String := ["quit", "q", "exit"]

/-- The radare2 child oracle.  `execOut part` is the raw `self._r2.cmd
(part)` result inside `_execute`; `sideOutput i` is the merged text of the
i-th `_collect_side_output` call (stderr pump plus log drain, abstracted
as a call-indexed stream); `promptFor i` is the raw `s` result of the i-th
`_update_prompt` call (`none` models a raised exception); `exitMsg part`
is the `_handle_exit(part)` message (exit + teardown + restart flow);
`restartFail` is `some m` when the `initialize_session` retry after a
`Process terminated unexpectedly` error raises `m`. -/
structure R2Env where
  execOut : String → R2CmdOutcome
  sideOutput : Nat → String
  promptFor : Nat → Option String
  exitMsg : String → String
  restartFail : Option String

/-- The mutable radare2 backend bits the `run_command` loop touches:
the indices into the side-output and prompt oracles and the REPL prompt
string. -/
structure R2State where
  sideIdx : Nat
  promptIdx : Nat
  prompt : String
deriving Repr, DecidableEq

/-- `Radare2SubprocessBackend._collect_side_output`. -/
def r2CollectSide (env : R2Env) (st : R2State) : String × R2State :=
  (env.sideOutput st.sideIdx, { st with sideIdx := st.sideIdx + 1 })

/-- `Radare2SubprocessBackend._update_prompt`. -/
def r2UpdatePrompt (env : R2Env) (st : R2State) : R2State :=
  match env.promptFor st.promptIdx with
  | none => { st with promptIdx := st.promptIdx + 1, prompt := "radare2> " }
  | some raw =>
    let addr := pyStrip raw
    { st with promptIdx := st.promptIdx + 1,
              prompt := if addr ≠ "" then "[" ++ addr ++ "]> " else "radare2> " }

/-- The per-part loop of `Radare2SubprocessBackend.run_command`; returns
the collected outputs, the final backend state, and the commands passed
to `self._r2.cmd` by `_execute` (the `s` prompt probes and the exit flow
are accounted by their oracles). -/
def r2RunLoop (env : R2Env) : List String → R2State → List String × R2State × List String
  | [], st => ([], st, [])
  | part :: rest, st =>
    if part = "" then r2RunLoop env rest st
    else if pyLower part ∈ r2ExitCommands then ([env.exitMsg part], st, [])
    else
      let (leading, st) := r2CollectSide env st
      match env.execOut part with
      | .ok raw =>
        let out := r2Sanitize raw
        let (trailing, st) := r2CollectSide env st
        let st := r2UpdatePrompt env st
        let combined := r2MergeOutput [leading, out, trailing]
        let (os, st, ss) := r2RunLoop env rest st
        ((if combined ≠ "" then [combined] else []) ++ os, st, part :: ss)
      | .errRuntime msg =>
        let (trailing, st) := r2CollectSide env st
        let st := r2UpdatePrompt env st
        let errorText := "[radare2 error] " ++ part ++ ": " ++ msg
        let combined := r2MergeOutput [leading, trailing, errorText]
        let first := if combined ≠ "" then combined else errorText
        if containsSubstr msg "Process terminated unexpectedly" then
          match env.restartFail with
          | some m => ([first, "[radare2 restart failed] " ++ m], st, [part])
          | none =>
            let (os, st, ss) := r2RunLoop env rest st
            (first :: os, st, part :: ss)
        else
          let (os, st, ss) := r2RunLoop env rest st
          (first :: os, st, part :: ss)
      | .errOther msg =>
        let (trailing, st) := r2CollectSide env st
        let st := r2UpdatePrompt env st
        let errorText := "[radare2 error] " ++ part ++ ": " ++ msg
        let combined := r2MergeOutput [leading, trailing, errorText]
        let first := if combined ≠ "" then combined else errorText
        let (os, st, ss) := r2RunLoop env rest st
        (first :: os, st, part :: ss)

/-- `Radare2SubprocessBackend.run_command` (src/src/dbgcopilot/backends/
radare2_subprocess.py lines 126-164): strip the input, return the empty
string immediately when nothing is left, else run the split parts. -/
def r2RunCommand (env : R2Env) (st : R2State) (cmd : String) :
    String × R2State × List String :=
  let text := pyStrip cmd
  if text = "" then ("", st, [])
  else
    let (outputs, st, sends) := r2RunLoop env (r2SplitCommands text) st
    (String.intercalate "\n" (outputs.filter (· ≠ "")), st, sends)

/-! ## dbgagent/runner.py -/

/-- `DebugAgentRunner._extract_cmd`
(src/dbgagent/src/dbgagent/runner.py lines 386-390): the same regex search
as the orchestrator, with the group stripped. -/
def agentExtractCmd (text : String) : Option String :=
  extractCmdTag text

/-- The observable outcome of one `_auto_loop` iteration after the LLM
reply is received (runner.py lines 312-329): the chatlog line appended,
the `(command, output)` pairs recorded via `_record_execution`, and the
final report, when the reply is treated as one. -/
structure AgentStepOut where
  chatlogLine : String
  executed : List (String × String)
  finalReport : Option String
deriving Repr, DecidableEq

/-- One `_auto_loop` reply-handling step: append `Assistant: <clean>` to
the chatlog; if a (truthy, that is, non-empty) command is extracted,
execute it and continue; else a non-empty reply is the final report and an
empty one is skipped. -/
def agentHandleReply (backendRun : String → String) (answer : String) : AgentStepOut :=
  let answerClean := pyStrip answer
  let line := "Assistant: " ++ answerClean
  match agentExtractCmd answerClean with
  | some c =>
    if c ≠ "" then
      { chatlogLine := line, executed := [(c, backendRun c)], finalReport := none }
    else if answerClean = "" then
      { chatlogLine := line, executed := [], finalReport := none }
    else
      { chatlogLine := line, executed := [], finalReport := some answerClean }
  | none =>
    if answerClean = "" then
      { chatlogLine := line, executed := [], finalReport := none }
    else
      { chatlogLine := line, executed := [], finalReport := some answerClean }

end DbgCopilot

namespace DbgCopilot

/-! ## Predicates and concrete fixtures used by the theorems -/

/-- The five replies that make the overflow guard rotate the session
(`_llm_turn` lines 231-263). -/
def rotLits : List String :=
  ["summarize and new session", "summarise and new session",
   "new session", "start new session", "new"]

/-- The (already stripped) user text is one of the session-rotation
replies. -/
def RotChoice (t : String) : Prop := pyLower t ∈ rotLits

instance (t : String) : Decidable (RotChoice t) := by
  unfold RotChoice; infer_instance

/-- A chatlog line of the documented shape: a user line or an assistant
line (the `Assistant: (executed) ...` entries are assistant lines). -/
def lineOk (l : String) : Prop :=
  (∃ r, l = "User: " ++ r) ∨ (∃ r, l = "Assistant: " ++ r)

/-- The session fields `_llm_turn` never writes (the confirmation handler
does write `auto_accept_commands` and `config`). -/
def SessionCtlEq (s s' : SessionState) : Prop :=
  s'.auto_accept_commands = s.auto_accept_commands
  ∧ s'.auto_rounds_remaining = s.auto_rounds_remaining
  ∧ s'.config = s.config
  ∧ s'.colors_enabled = s.colors_enabled
  ∧ s'.selected_provider = s.selected_provider
  ∧ s'.has_debugger_output_sink = s.has_debugger_output_sink
  ∧ s'.has_chat_output_sink = s.has_chat_output_sink

/-- One orchestrator step only appends to the call logs and never writes
the control fields of `SessionCtlEq`. -/
def TurnExtends (e e' : OrchEff) : Prop :=
  SessionCtlEq e.st e'.st
  ∧ (∃ l, e'.providerCalls = e.providerCalls ++ l)
  ∧ (∃ l, e'.backendCalls = e.backendCalls ++ l)

/-- One orchestrator step only appends well-shaped lines to the
chatlog. -/
def ChatlogExt (e e' : OrchEff) : Prop :=
  ∃ t, e'.st.chatlog = e.st.chatlog ++ t ∧ ∀ l ∈ t, lineOk l

/-- The selected provider name is unset, empty, or not registered
(`get_provider` returns `None`). -/
def ProviderUnavailable (env : OrchEnv) (st : SessionState) : Prop :=
  match resolveProviderName st with
  | none => True
  | some p => p = "" ∨ env.providers p = none

/-- A prompt config with empty templates and the default context budget. -/
def cfgBasic : PromptCfg :=
  { systemPreambleFor := fun _ => "", assistantCmdTagInstructions := "",
    rules := [], languageHintZh := "", maxContextChars := defaultMaxContextChars }

/-- Same config with a tiny `max_context_chars`, to exercise the overflow
guard on small transcripts. -/
def cfgTiny : PromptCfg :=
  { cfgBasic with maxContextChars := 5 }

/-- An environment with no registered provider. -/
def envNoProv : OrchEnv :=
  { dbgName := "gdb", cfg := cfgBasic, providers := fun _ => none,
    backendRun := fun _ => "ok", freshSessionId := "newid123",
    summarizeAsk := fun _ _ => none }

def envTiny : OrchEnv :=
  { envNoProv with cfg := cfgTiny }

/-- A mock provider: replies with a `<cmd>bt</cmd>` proposal on the first
prompt and with a plain answer on any followup prompt (recognized by the
`was executed` marker the followup template contains). -/
def mockReply (p : String) : String :=
  if containsSubstr p "was executed" then "All done."
  else "Inspect the stack. <cmd>bt</cmd>"

def envAuto : OrchEnv :=
  { envNoProv with providers := fun n => if n = "mock" then some mockReply else none }

def stC1 : SessionState :=
  { session_id := "s1", pending_command := some "bt", colors_enabled := false }

def stC2 : SessionState :=
  { session_id := "s2", selected_provider := some "mock",
    auto_accept_commands := true, auto_rounds_remaining := some 1,
    colors_enabled := false }

def stC3 : SessionState :=
  { session_id := "s3", chatlog := ["User: hi", "Assistant: hello"],
    colors_enabled := false }

def stPlain : SessionState := { session_id := "s4" }

def effOf (st : SessionState) : OrchEff := { st := st }

/-- A `json.loads` oracle that always fails (no claim input reaches the
JSON branches). -/
def jsonNone : String → Option PyVal := fun _ => none

/-- The leaf assignment of `_apply_path`: a string written to a leaf named
`stop` is wrapped into a singleton list; every other non-`None` value is
written as is. -/
def stopWrap (leaf : String) (value : PyVal) : PyVal :=
  if leaf = "stop" then
    match value with
    | .pystr s => .pylist [.pystr s]
    | _ => value
  else value

def gdbEnvOkEmpty : GdbEnv :=
  { send := fun _ => .ok "",
    exitRestart := fun _ => "[gdb] session restarted; ready for commands" }

/-- An lldb child oracle whose every capture is empty. -/
def lldbEnvConst : LldbEnv :=
  { send := fun _ => .ok "", hint := "" }

/-- A radare2 oracle with quiet side channels and a healthy child. -/
def r2EnvConst : R2Env :=
  { execOut := fun _ => .ok "", sideOutput := fun _ => "",
    promptFor := fun _ => none, exitMsg := fun _ => "", restartFail := none }

end DbgCopilot

namespace DbgCopilot

/-! ## Theorems for the claims -/

set_option maxRecDepth 4000

/-- C1 (counterexample): with pending command `bt` and the auto-enabling
reply `a`, the code sets `auto_accept_commands` and executes the command,
but it does NOT reset `auto_rounds_remaining` to
`resolve_auto_round_limit` (64 here): the countdown stays `none`. -/
theorem c1_counterexample :
    (ask envNoProv 2 "a" (effOf stC1)).2.st.auto_rounds_remaining = none
    ∧ resolveAutoRoundLimit stC1.config = 64
    ∧ (ask envNoProv 2 "a" (effOf stC1)).2.st.auto_accept_commands = true
    ∧ (ask envNoProv 2 "a" (effOf stC1)).2.backendCalls = ["bt"] := by
  decide

/-- C2 (behavior at the failing input): in auto mode with
`auto_rounds_remaining == 1`, a reply carrying a `<cmd>` tag executes the
command, but nothing decrements the countdown and auto mode stays
enabled. -/
theorem c2_behavior :
    (ask envAuto 4 "why did it crash" (effOf stC2)).2.st.auto_accept_commands = true
    ∧ (ask envAuto 4 "why did it crash" (effOf stC2)).2.st.auto_rounds_remaining = some 1
    ∧ (ask envAuto 4 "why did it crash" (effOf stC2)).2.backendCalls = ["bt"] := by
  decide

/-- C3 (counterexample): when the overflow guard fires and the user
replies `new session`, `ask` clears the chatlog, so the chatlog length
strictly decreases across the turn. -/
theorem c3_counterexample :
    (ask envTiny 1 "new session" (effOf stC3)).2.st.chatlog.length
      < (effOf stC3).st.chatlog.length := by
  decide

/-- C4 (counterexample): with no pending command and no provider, `ask`
on empty user text returns the fixed ready message, not the empty
string. -/
theorem c4_counterexample :
    (ask envNoProv 1 "" (effOf stPlain)).1 = readyMsg ∧ readyMsg ≠ "" := by
  decide

/-- C8 (counterexample): coercing the string `"1"` for `max_tokens` takes
the boolean-literal branch before the integer branch, yielding the Python
boolean `True`, not the integer 1. -/
theorem c8_counterexample :
    coerceValue jsonNone "max_tokens" (.pystr "1") = .ok (.pybool true, false)
    ∧ ∀ i : Int, (PyVal.pybool true) ≠ PyVal.pyint i := by
  exact ⟨rfl, fun _ h => PyVal.noConfusion h⟩

/-- C9 (counterexample): the gdb backend, on empty input, falls back to
`parts = [cmd.strip()]` and sends the empty command to the child instead
of returning without sending. -/
theorem c9_counterexample :
    (gdbRunCommand gdbEnvOkEmpty "").2 = [""]
    ∧ ([""] : List String) ≠ [] := by
  decide

end DbgCopilot

namespace DbgCopilot

/-! ### C7: apply_params places the coerced value at the canonical path -/

theorem alGet_alSet_self {α : Type} (k : String) (v : α) (l : List (String × α)) :
    alGet k (alSet k v l) = some v := by
  induction l with
  | nil => simp [alSet, alGet]
  | cons hd tl ih =>
    obtain ⟨k2, v2⟩ := hd
    by_cases h : k2 = k
    · simp [alSet, alGet, h]
    · simp [alSet, alGet, h, ih]

theorem lookupPath_applyPathParts (v : PyVal) (hv : v ≠ PyVal.pynone) :
    ∀ (segs : List String) (body : List (String × PyVal)), segs ≠ [] →
      lookupPath (applyPathParts body segs v) segs
        = some (stopWrap (segs.getLastD "") v)
  | [], _, h => absurd rfl h
  | [leaf], body, _ => by
    cases v with
    | pynone => exact absurd rfl hv
    | pybool b => simp [applyPathParts, lookupPath, stopWrap, alGet_alSet_self]
    | pyint i => simp [applyPathParts, lookupPath, stopWrap, alGet_alSet_self]
    | pyfloat q => simp [applyPathParts, lookupPath, stopWrap, alGet_alSet_self]
    | pystr s =>
      by_cases h : leaf = "stop" <;>
        simp [applyPathParts, lookupPath, stopWrap, alGet_alSet_self, h]
    | pylist xs => simp [applyPathParts, lookupPath, stopWrap, alGet_alSet_self]
    | pydict d => simp [applyPathParts, lookupPath, stopWrap, alGet_alSet_self]
  | seg :: r :: rest, body, _ => by
    have ih := lookupPath_applyPathParts v hv (r :: rest)
      (match alGet seg body with
        | some (.pydict d) => d
        | _ => []) (by simp)
    simp only [applyPathParts, lookupPath, alGet_alSet_self]
    simpa using ih

/-- C7: for a parameter mapping with canonical dotted path whose segments
are `segs` and a non-`None` value, `apply_params` walks the path creating
intermediate maps and assigns the (stop-wrapped) value at the leaf. -/
theorem c7_theorem (body : List (String × PyVal)) (canonical : String)
    (segs : List String) (v : PyVal)
    (hsegs : (pySplitOnChar '.' canonical).filter (· ≠ "") = segs)
    (hne : segs ≠ []) (hv : v ≠ PyVal.pynone) :
    applyParams body [(canonical, v)] none true = .ok (applyPath body canonical v)
    ∧ lookupPath (applyPath body canonical v) segs
        = some (stopWrap (segs.getLastD "") v) := by
  refine ⟨rfl, ?_⟩
  unfold applyPath
  rw [hsegs]
  exact lookupPath_applyPathParts v hv segs body hne

/-- C7 witness: applying `options.stop := "END"` to an empty body places
the singleton list `["END"]` at `body["options"]["stop"]`. -/
theorem c7_witness :
    ((pySplitOnChar '.' "options.stop").filter (· ≠ "") = ["options", "stop"])
    ∧ (["options", "stop"] : List String) ≠ []
    ∧ applyParams [] [("options.stop", PyVal.pystr "END")] none true
        = .ok (applyPath [] "options.stop" (PyVal.pystr "END"))
    ∧ lookupPath (applyPath [] "options.stop" (PyVal.pystr "END")) ["options", "stop"]
        = some (.pylist [.pystr "END"]) := by
  have h := c7_theorem [] "options.stop" ["options", "stop"] (PyVal.pystr "END")
    (by decide) (by simp) (fun hx => PyVal.noConfusion hx)
  exact ⟨by decide, by simp, h.1, h.2⟩

end DbgCopilot

namespace DbgCopilot

/-! ### C8: integer coercion of digit strings -/

theorem toLower_eq_of_isDigit (c : Char) (h : c.isDigit = true) : c.toLower = c := by
  have h1 : 48 ≤ c.toNat ∧ c.toNat ≤ 57 := by
    simp only [Char.isDigit, Bool.and_eq_true, decide_eq_true_eq] at h
    exact ⟨UInt32.le_def.mp h.1, UInt32.le_def.mp h.2⟩
  unfold Char.toLower
  have h2 : ¬(65 ≤ c.toNat ∧ c.toNat ≤ 90) := by omega
  simp [h2]

theorem not_isPyWhitespace_of_isDigit (c : Char) (h : c.isDigit = true) :
    isPyWhitespace c = false := by
  have h1 : 48 ≤ c.toNat ∧ c.toNat ≤ 57 := by
    simp only [Char.isDigit, Bool.and_eq_true, decide_eq_true_eq] at h
    exact ⟨UInt32.le_def.mp h.1, UInt32.le_def.mp h.2⟩
  unfold isPyWhitespace
  have hs : c ≠ ' ' := by intro hx; rw [hx] at h1; exact absurd h1 (by decide)
  have ht : c ≠ '\t' := by intro hx; rw [hx] at h1; exact absurd h1 (by decide)
  have hn : c ≠ '\n' := by intro hx; rw [hx] at h1; exact absurd h1 (by decide)
  have hr : c ≠ '\r' := by intro hx; rw [hx] at h1; exact absurd h1 (by decide)
  have hv : c ≠ '\x0b' := by intro hx; rw [hx] at h1; exact absurd h1 (by decide)
  have hf : c ≠ '\x0c' := by intro hx; rw [hx] at h1; exact absurd h1 (by decide)
  simp [hs, ht, hn, hr, hv, hf]

theorem dropWhile_eq_self_of_all {p : Char → Bool} {l : List Char}
    (h : ∀ x ∈ l, p x = false) : l.dropWhile p = l := by
  induction l with
  | nil => rfl
  | cons a t ih =>
    rw [List.dropWhile_cons]
    simp [h a (List.mem_cons_self a t), ih (fun x hx => h x (List.mem_cons_of_mem _ hx))]

theorem pyStrip_eq_self_of_no_ws (s : String)
    (h : ∀ x ∈ s.data, isPyWhitespace x = false) : pyStrip s = s := by
  unfold pyStrip
  rw [dropWhile_eq_self_of_all h,
      dropWhile_eq_self_of_all (fun x hx => h x (List.mem_reverse.mp hx))]
  simp

theorem pyLower_eq_self_of_digits (s : String)
    (h : ∀ x ∈ s.data, x.isDigit = true) : pyLower s = s := by
  unfold pyLower
  rw [List.map_congr_left (fun x hx => toLower_eq_of_isDigit x (h x hx))]
  simp

theorem parsePyFloat_digits (s : String) (hne : s.data ≠ [])
    (hdig : ∀ c ∈ s.data, c.isDigit = true) :
    parsePyFloat s = some ((digitsVal s.data : Nat) : Rat) := by
  obtain ⟨c, rest, hs⟩ : ∃ c rest, s.data = c :: rest := by
    cases h : s.data with
    | nil => exact absurd h hne
    | cons a b => exact ⟨a, b, rfl⟩
  have hc := hdig c (by rw [hs]; exact List.mem_cons_self _ _)
  have hcp : c ≠ '+' := by intro h; rw [h] at hc; exact absurd hc (by decide)
  have hcm : c ≠ '-' := by intro h; rw [h] at hc; exact absurd hc (by decide)
  have htk : s.data.takeWhile Char.isDigit = s.data :=
    List.takeWhile_eq_self_iff.mpr hdig
  have hdp : s.data.dropWhile Char.isDigit = [] :=
    List.dropWhile_eq_nil_iff.mpr hdig
  unfold parsePyFloat
  rw [hs] at htk hdp ⊢
  simp only [hcp, hcm, if_false, htk, hdp]
  have hnonempty : (c :: rest).isEmpty = false := by simp
  simp [hnonempty, digitsVal]

theorem pyTruncRat_natCast (n : Nat) : pyTruncRat ((n : Nat) : Rat) = (n : Int) := by
  simp [pyTruncRat, Rat.num_natCast, Rat.den_natCast, Int.tdiv]

/-- C8 (amended): for a canonical name whose final segment is an integer
parameter, a non-empty all-digit string that is not one of the boolean
literals `"0"` / `"1"` (and short enough that IEEE-754 `float` is exact)
coerces to the integer value of the numeral with the `cleared` flag
false. -/
theorem c8_theorem (jsonLoads : String → Option PyVal) (canonical s : String)
    (hbase : (pySplitOnChar '.' canonical).getLastD "" ∈ intBaseNames)
    (hne : s.data ≠ []) (hdig : ∀ c ∈ s.data, c.isDigit = true)
    (hlen : s.data.length ≤ 15) (h0 : s ≠ "0") (h1 : s ≠ "1") :
    coerceValue jsonLoads canonical (.pystr s)
      = .ok (.pyint (digitsVal s.data), false) := by
  have hstrip : pyStrip s = s :=
    pyStrip_eq_self_of_no_ws s
      (fun x hx => not_isPyWhitespace_of_isDigit x (hdig x hx))
  have hlow : pyLower s = s := pyLower_eq_self_of_digits s hdig
  have hsne : s ≠ "" := by
    intro h; apply hne
    rw [h]
  have charNe : ∀ (t : String), (∃ c rest, t.data = c :: rest ∧ c.isDigit = false) → s ≠ t := by
    rintro t ⟨c, rest, hts, hcd⟩ he
    have : c ∈ s.data := by rw [he, hts]; exact List.mem_cons_self _ _
    rw [hdig c this] at hcd
    exact Bool.true_eq_false.mp hcd
  have hnone : s ≠ "none" := charNe _ ⟨'n', _, rfl, by decide⟩
  have hnull : s ≠ "null" := charNe _ ⟨'n', _, rfl, by decide⟩
  have hclear : s ≠ "clear" := charNe _ ⟨'c', _, rfl, by decide⟩
  have htrue : s ≠ "true" := charNe _ ⟨'t', _, rfl, by decide⟩
  have hyes : s ≠ "yes" := charNe _ ⟨'y', _, rfl, by decide⟩
  have hon : s ≠ "on" := charNe _ ⟨'o', _, rfl, by decide⟩
  have hfalse : s ≠ "false" := charNe _ ⟨'f', _, rfl, by decide⟩
  have hno : s ≠ "no" := charNe _ ⟨'n', _, rfl, by decide⟩
  have hoff : s ≠ "off" := charNe _ ⟨'o', _, rfl, by decide⟩
  have hbase2 : (pySplitOnChar '.' canonical).getLast?.getD "" ∈ intBaseNames := by
    simpa [List.getLastD_eq_getLast?] using hbase
  simp only [coerceValue, hstrip, hlow]
  simp [hsne, hnone, hnull, hclear, htrue, hyes, hon, hfalse, hno, hoff, h0, h1,
        boolTrueLits, boolFalseLits, hbase2,
        parsePyFloat_digits s hne hdig, pyTruncRat_natCast]

/-- C8 witness: coercing the string `"42"` for `max_tokens` yields the
integer 42. -/
theorem c8_witness :
    ((pySplitOnChar '.' "max_tokens").getLastD "" ∈ intBaseNames)
    ∧ ("42").data ≠ []
    ∧ (∀ c ∈ ("42").data, c.isDigit = true)
    ∧ coerceValue jsonNone "max_tokens" (.pystr "42") = .ok (.pyint 42, false) := by
  refine ⟨by decide, by decide, by decide, ?_⟩
  have h := c8_theorem jsonNone "max_tokens" "42" (by decide) (by decide)
    (by decide) (by decide) (by decide) (by decide)
  simpa using h

end DbgCopilot

namespace DbgCopilot

/-! ### Strip idempotence and the ready-message fall-through -/

theorem dropWhile_idem (p : Char → Bool) (l : List Char) :
    (l.dropWhile p).dropWhile p = l.dropWhile p := by
  cases h : l.dropWhile p with
  | nil => rfl
  | cons a t =>
    have hh := List.head?_dropWhile_not p l
    rw [h] at hh
    simp only [List.head?_cons] at hh
    rw [List.dropWhile_cons]
    simp [hh]

theorem pyStrip_idem (s : String) : pyStrip (pyStrip s) = pyStrip s := by
  unfold pyStrip
  set a := s.data.dropWhile isPyWhitespace with ha
  set c := a.reverse.dropWhile isPyWhitespace with hc
  show String.mk (((c.reverse.dropWhile isPyWhitespace).reverse.dropWhile
    isPyWhitespace).reverse) = String.mk c.reverse
  have h1 : c.reverse.dropWhile isPyWhitespace = c.reverse := by
    cases hr : c.reverse with
    | nil => rfl
    | cons x t =>
      have hcne : c ≠ [] := by
        intro hnil; rw [hnil] at hr; simp at hr
      have hx : c.getLast? = some x := by
        rw [List.getLast?_eq_head?_reverse, hr, List.head?_cons]
      obtain ⟨t0, ht0⟩ := List.dropWhile_suffix (l := a.reverse) isPyWhitespace
      have hal : a.head? = some x := by
        rw [← List.getLast?_reverse, ← ht0, List.getLast?_append]
        rw [hc] at hx
        rw [hx]
        rfl
      have hnw := List.head?_dropWhile_not isPyWhitespace s.data
      rw [← ha, hal] at hnw
      simp only [] at hnw
      rw [List.dropWhile_cons]
      simp [hnw]
  rw [h1, List.reverse_reverse]
  rw [show c.dropWhile isPyWhitespace = c from by rw [hc]; exact dropWhile_idem _ _]

theorem resolveProviderName_reset (st : SessionState) (b : Bool) :
    resolveProviderName { st with last_answer_streamed := b } = resolveProviderName st := rfl

/-- When the resolved provider name is falsy or not registered and the
overflow guard does not fire, `_llm_turn` only resets
`last_answer_streamed` and returns the ready message. -/
theorem llmTurn_no_provider (env : OrchEnv) (fuel : Nat) (q : String) (eff : OrchEff)
    (hov : (String.intercalate "\n"
        (eff.st.chatlog ++ ["User: " ++ pyStrip q])).length ≤ env.cfg.maxContextChars)
    (hprov : ProviderUnavailable env eff.st) :
    llmTurn env (fuel+1) q eff
      = (readyMsg, { eff with st := { eff.st with last_answer_streamed := false } }) := by
  have hov2 : ¬ (String.intercalate "\n"
      (eff.st.chatlog ++ ["User: " ++ pyStrip q])).length > env.cfg.maxContextChars :=
    not_lt.mpr hov
  unfold ProviderUnavailable at hprov
  cases hres : resolveProviderName eff.st with
  | none => simp [llmTurn, hov2, resolveProviderName_reset, hres]
  | some p =>
    rw [hres] at hprov
    rcases hprov with hp | hp
    · subst hp
      simp [llmTurn, hov2, resolveProviderName_reset, hres]
    · simp [llmTurn, hov2, resolveProviderName_reset, hres, hp]

/-- C4 (amended): with no pending command, no resolvable provider, and a
transcript below the overflow limit, `ask` on empty or whitespace-only
text returns the fixed ready message and leaves chatlog, attempts, facts,
last_output and config unchanged. -/
theorem c4_theorem (env : OrchEnv) (fuel : Nat) (q : String) (eff : OrchEff)
    (hq : pyStrip q = "") (hpend : eff.st.pending_command = none)
    (hov : (String.intercalate "\n"
        (eff.st.chatlog ++ ["User: " ++ pyStrip q])).length ≤ env.cfg.maxContextChars)
    (hprov : ProviderUnavailable env eff.st) :
    (ask env (fuel+1) q eff).1 = readyMsg
    ∧ (ask env (fuel+1) q eff).2.st.chatlog = eff.st.chatlog
    ∧ (ask env (fuel+1) q eff).2.st.attempts = eff.st.attempts
    ∧ (ask env (fuel+1) q eff).2.st.facts = eff.st.facts
    ∧ (ask env (fuel+1) q eff).2.st.last_output = eff.st.last_output
    ∧ (ask env (fuel+1) q eff).2.st.config = eff.st.config := by
  have hask : ask env (fuel+1) q eff = llmTurn env (fuel+1) (pyStrip q) eff := by
    unfold ask
    rw [hpend]
  have hov3 : (String.intercalate "\n"
      (eff.st.chatlog ++ ["User: " ++ pyStrip (pyStrip q)])).length
        ≤ env.cfg.maxContextChars := by
    rw [pyStrip_idem]
    exact hov
  rw [hask, llmTurn_no_provider env fuel (pyStrip q) eff hov3 hprov]
  exact ⟨rfl, rfl, rfl, rfl, rfl, rfl⟩

/-- C4 witness: whitespace-only input on a fresh session with no provider
returns the ready message and changes nothing. -/
theorem c4_witness :
    pyStrip "   " = ""
    ∧ (effOf stPlain).st.pending_command = none
    ∧ (ask envNoProv 1 "   " (effOf stPlain)).1 = readyMsg
    ∧ (ask envNoProv 1 "   " (effOf stPlain)).2.st.chatlog = (effOf stPlain).st.chatlog := by
  have h := c4_theorem envNoProv 0 "   " (effOf stPlain) (by decide) rfl
    (by decide) trivial
  exact ⟨by decide, rfl, h.1, h.2.1⟩

/-- C10: with no pending command, non-empty text, no overflow, and a
provider name that is unset, empty or unregistered, `ask` returns the
fixed ready message without raising and leaves chatlog, attempts and
facts unchanged. -/
theorem c10_theorem (env : OrchEnv) (fuel : Nat) (q : String) (eff : OrchEff)
    (hq : pyStrip q ≠ "") (hpend : eff.st.pending_command = none)
    (hov : (String.intercalate "\n"
        (eff.st.chatlog ++ ["User: " ++ pyStrip q])).length ≤ env.cfg.maxContextChars)
    (hprov : ProviderUnavailable env eff.st) :
    (ask env (fuel+1) q eff).1 = readyMsg
    ∧ (ask env (fuel+1) q eff).2.st.chatlog = eff.st.chatlog
    ∧ (ask env (fuel+1) q eff).2.st.attempts = eff.st.attempts
    ∧ (ask env (fuel+1) q eff).2.st.facts = eff.st.facts := by
  have hask : ask env (fuel+1) q eff = llmTurn env (fuel+1) (pyStrip q) eff := by
    unfold ask
    rw [hpend]
  have hov3 : (String.intercalate "\n"
      (eff.st.chatlog ++ ["User: " ++ pyStrip (pyStrip q)])).length
        ≤ env.cfg.maxContextChars := by
    rw [pyStrip_idem]
    exact hov
  rw [hask, llmTurn_no_provider env fuel (pyStrip q) eff hov3 hprov]
  exact ⟨rfl, rfl, rfl, rfl⟩

/-- C10 witness: a session whose selected provider is not registered gets
the ready message and no state change. -/
theorem c10_witness :
    pyStrip "what next" ≠ ""
    ∧ (effOf stPlain).st.pending_command = none
    ∧ (ask envNoProv 1 "what next" (effOf stPlain)).1 = readyMsg
    ∧ (ask envNoProv 1 "what next" (effOf stPlain)).2.st.facts = (effOf stPlain).st.facts := by
  have h := c10_theorem envNoProv 0 "what next" (effOf stPlain) (by decide) rfl
    (by decide) trivial
  exact ⟨by decide, rfl, h.1, h.2.2.2⟩

end DbgCopilot

namespace DbgCopilot

/-! ### The turn loop only appends to logs and never writes control fields -/

theorem turnExtends_refl (e : OrchEff) : TurnExtends e e :=
  ⟨⟨rfl, rfl, rfl, rfl, rfl, rfl, rfl⟩, ⟨[], by simp⟩, ⟨[], by simp⟩⟩

theorem turnExtends_trans {a b c : OrchEff} (h1 : TurnExtends a b) (h2 : TurnExtends b c) :
    TurnExtends a c := by
  obtain ⟨⟨s1, s2, s3, s4, s5, s6, s7⟩, ⟨p1, hp1⟩, ⟨b1, hb1⟩⟩ := h1
  obtain ⟨⟨t1, t2, t3, t4, t5, t6, t7⟩, ⟨p2, hp2⟩, ⟨b2, hb2⟩⟩ := h2
  refine ⟨⟨?_, ?_, ?_, ?_, ?_, ?_, ?_⟩, ⟨p1 ++ p2, ?_⟩, ⟨b1 ++ b2, ?_⟩⟩
  · rw [t1, s1]
  · rw [t2, s2]
  · rw [t3, s3]
  · rw [t4, s4]
  · rw [t5, s5]
  · rw [t6, s6]
  · rw [t7, s7]
  · rw [hp2, hp1, List.append_assoc]
  · rw [hb2, hb1, List.append_assoc]

theorem emitChat_extends (eff : OrchEff) (text : String) (color : Option String) :
    TurnExtends eff (emitChat eff text color).2 := by
  simp only [emitChat]
  repeat' split
  all_goals exact ⟨⟨rfl, rfl, rfl, rfl, rfl, rfl, rfl⟩, ⟨[], by simp⟩, ⟨[], by simp⟩⟩

theorem executeOnce_backendCalls (env : OrchEnv) (eff : OrchEff) (c : String) :
    (executeOnce env eff c).2.backendCalls = eff.backendCalls ++ [c] := by
  simp only [executeOnce]
  split <;> split <;> simp_all

theorem executeOnce_extends (env : OrchEnv) (eff : OrchEff) (c : String) :
    TurnExtends eff (executeOnce env eff c).2 := by
  simp only [executeOnce]
  repeat' split
  all_goals exact ⟨⟨rfl, rfl, rfl, rfl, rfl, rfl, rfl⟩, ⟨[], by simp⟩, ⟨[c], by simp⟩⟩

theorem formatConfirmationPrompt_extends (env : OrchEnv) (eff : OrchEff) (a c : String) :
    TurnExtends eff (formatConfirmationPrompt env eff a c).2 := by
  unfold formatConfirmationPrompt
  exact ⟨⟨rfl, rfl, rfl, rfl, rfl, rfl, rfl⟩, ⟨[], by simp⟩, ⟨[], by simp⟩⟩

theorem eWFCore_extends (env : OrchEnv) (turn : String → OrchEff → String × OrchEff)
    (c : String) (pre : Option String) (eff : OrchEff)
    (hturn : ∀ q e, TurnExtends e (turn q e).2) :
    TurnExtends eff (executeWithFollowupCore env turn c pre eff).2 := by
  unfold executeWithFollowupCore
  exact turnExtends_trans (executeOnce_extends env eff c)
    (hturn _ (executeOnce env eff c).2)

theorem eWFCore_backendCalls (env : OrchEnv) (turn : String → OrchEff → String × OrchEff)
    (c : String) (pre : Option String) (eff : OrchEff)
    (hturn : ∀ q e, TurnExtends e (turn q e).2) :
    ∃ l, (executeWithFollowupCore env turn c pre eff).2.backendCalls
      = eff.backendCalls ++ c :: l := by
  unfold executeWithFollowupCore
  obtain ⟨_, _, ⟨l, hl⟩⟩ := hturn
    (buildFollowupPrompt c (executeOnce env eff c).1.1) (executeOnce env eff c).2
  refine ⟨l, ?_⟩
  rw [hl, executeOnce_backendCalls]
  simp

theorem extends_to_emitChat {eff X : OrchEff} {t : String} {c : Option String}
    (h : TurnExtends eff X) : TurnExtends eff (emitChat X t c).2 :=
  turnExtends_trans h (emitChat_extends X t c)

theorem extends_to_eWFCore {eff X : OrchEff} (env : OrchEnv)
    (turn : String → OrchEff → String × OrchEff) (c : String) (pre : Option String)
    (hturn : ∀ q e, TurnExtends e (turn q e).2) (h : TurnExtends eff X) :
    TurnExtends eff (executeWithFollowupCore env turn c pre X).2 :=
  turnExtends_trans h (eWFCore_extends env turn c pre X hturn)

theorem extends_to_formatConfirmation {eff X : OrchEff} (env : OrchEnv) (a c : String)
    (h : TurnExtends eff X) :
    TurnExtends eff (formatConfirmationPrompt env X a c).2 :=
  turnExtends_trans h (formatConfirmationPrompt_extends env X a c)

theorem extends_to_setPending {eff X : OrchEff} (p : Option String)
    (h : TurnExtends eff X) :
    TurnExtends eff { X with st := { X.st with pending_command := p } } := by
  refine turnExtends_trans h ⟨⟨rfl, rfl, rfl, rfl, rfl, rfl, rfl⟩, ⟨[], by simp⟩, ⟨[], by simp⟩⟩

set_option maxHeartbeats 1000000 in
theorem llmTurnDispatch_extends (env : OrchEnv)
    (turn : String → OrchEff → String × OrchEff) (q : String)
    (client : String → String) (eff : OrchEff)
    (hturn : ∀ q2 e2, TurnExtends e2 (turn q2 e2).2) :
    TurnExtends eff (llmTurnDispatch env turn q client eff).2 := by
  have leaf : TurnExtends eff { eff with
      providerCalls := eff.providerCalls ++ [primedQuestion env eff.st q],
      st := { eff.st with
        chatlog := eff.st.chatlog
          ++ ["User: " ++ pyStrip q,
              "Assistant: " ++ pyStrip (client (primedQuestion env eff.st q))],
        facts := eff.st.facts
          ++ ["Q: " ++ pyStrip q,
              "A: " ++ pyStrip ((pySplitlines (client (primedQuestion env eff.st q))).headD "")] } } :=
    ⟨⟨rfl, rfl, rfl, rfl, rfl, rfl, rfl⟩, ⟨_, rfl⟩, ⟨[], by simp⟩⟩
  simp only [llmTurnDispatch]
  split
  · -- a <cmd> directive was extracted
    split
    · -- auto mode: execute with followup
      repeat' split
      all_goals
        first
        | exact extends_to_eWFCore env turn _ _ hturn (extends_to_emitChat leaf)
        | exact extends_to_eWFCore env turn _ _ hturn leaf
    · -- manual mode: stash the pending command, emit the confirmation
      repeat' split
      all_goals
        first
        | exact extends_to_formatConfirmation env _ _ (extends_to_setPending _ (extends_to_emitChat leaf))
        | exact extends_to_formatConfirmation env _ _ (extends_to_setPending _ leaf)
  · -- no directive: return the (possibly color-wrapped) reply
    repeat' split
    all_goals
      first
      | exact extends_to_emitChat leaf
      | exact leaf

set_option maxHeartbeats 1000000 in
theorem llmTurn_extends (env : OrchEnv) (fuel : Nat) (q : String) (eff : OrchEff) :
    TurnExtends eff (llmTurn env fuel q eff).2 := by
  induction fuel generalizing q eff with
  | zero => exact turnExtends_refl eff
  | succ n ih =>
    have base : TurnExtends eff { eff with st := { eff.st with last_answer_streamed := false } } :=
      ⟨⟨rfl, rfl, rfl, rfl, rfl, rfl, rfl⟩, ⟨[], by simp⟩, ⟨[], by simp⟩⟩
    simp only [llmTurn]
    split
    · split
      · split <;> exact ⟨⟨rfl, rfl, rfl, rfl, rfl, rfl, rfl⟩, ⟨_, rfl⟩, ⟨[], by simp⟩⟩
      · split
        · exact ⟨⟨rfl, rfl, rfl, rfl, rfl, rfl, rfl⟩, ⟨[], by simp⟩, ⟨[], by simp⟩⟩
        · exact base
    · split
      · exact base
      · split
        · exact base
        · split
          · exact base
          · exact turnExtends_trans base
              (llmTurnDispatch_extends env _ q _ _ (fun q2 e2 => ih q2 e2))

end DbgCopilot

namespace DbgCopilot

theorem ifMsg_startsWith (pfx x : String) :
    ∃ r, (if x ≠ "" then pfx ++ "\n" ++ x else pfx) = pfx ++ r := by
  by_cases hx : x = ""
  · exact ⟨"", by simp [hx]⟩
  · exact ⟨"\n" ++ x, by simp [hx, String.append_assoc]⟩

theorem executeWithFollowup_extends (env : OrchEnv) (fuel : Nat) (c : String)
    (pre : Option String) (eff : OrchEff) :
    TurnExtends eff (executeWithFollowup env fuel c pre eff).2 :=
  eWFCore_extends env _ c pre eff (fun q e => llmTurn_extends env fuel q e)

theorem executeWithFollowup_backendCalls (env : OrchEnv) (fuel : Nat) (c : String)
    (pre : Option String) (eff : OrchEff) :
    ∃ l, (executeWithFollowup env fuel c pre eff).2.backendCalls
      = eff.backendCalls ++ c :: l :=
  eWFCore_backendCalls env _ c pre eff (fun q e => llmTurn_extends env fuel q e)

theorem emitChat_providerCalls (eff : OrchEff) (t : String) (c : Option String) :
    (emitChat eff t c).2.providerCalls = eff.providerCalls := by
  simp only [emitChat]
  repeat' split
  all_goals rfl

set_option maxHeartbeats 1000000 in
/-- The provider-dispatch tail always records the primed question as the
next provider call. -/
theorem llmTurnDispatch_providerCalls (env : OrchEnv)
    (turn : String → OrchEff → String × OrchEff) (q : String)
    (client : String → String) (eff : OrchEff)
    (hturn : ∀ q2 e2, TurnExtends e2 (turn q2 e2).2) :
    ∃ rest, (llmTurnDispatch env turn q client eff).2.providerCalls
      = eff.providerCalls ++ primedQuestion env eff.st q :: rest := by
  simp only [llmTurnDispatch]
  split
  · split
    · -- auto mode: execute with followup
      repeat' split
      all_goals
        first
        | (obtain ⟨l, hl⟩ := (eWFCore_extends env turn _ _ _ hturn).2.1
           exact ⟨l, by rw [hl, emitChat_providerCalls]; simp⟩)
        | (obtain ⟨l, hl⟩ := (eWFCore_extends env turn _ _ _ hturn).2.1
           exact ⟨l, by rw [hl]; simp⟩)
    · -- manual mode
      repeat' split
      all_goals
        first
        | exact ⟨[], by simp [formatConfirmationPrompt, emitChat_providerCalls]⟩
        | exact ⟨[], by simp [formatConfirmationPrompt]⟩
  · -- no directive
    repeat' split
    all_goals
      first
      | exact ⟨[], by simp [emitChat_providerCalls]⟩
      | exact ⟨[], by simp⟩

/-- C1 (amended): a confirmation reply in the auto set enables
auto-accept (state flag and config key), executes the pending command,
returns a message beginning with the auto-accept notice, and leaves
`auto_rounds_remaining` exactly as it was. -/
theorem c1_theorem (env : OrchEnv) (fuel : Nat) (reply : String) (eff : OrchEff)
    (c : String) (hpend : eff.st.pending_command = some c) (hc : c ≠ "")
    (hauto : pyLower (pyStrip reply) = "a" ∨ pyLower (pyStrip reply) = "auto"
      ∨ pyLower (pyStrip reply) = "auto yes" ∨ pyLower (pyStrip reply) = "auto-yes") :
    (ask env fuel reply eff).2.st.auto_accept_commands = true
    ∧ alGet "auto_accept_commands" (ask env fuel reply eff).2.st.config = some "true"
    ∧ (∃ l, (ask env fuel reply eff).2.backendCalls = eff.backendCalls ++ c :: l)
    ∧ (∃ r, (ask env fuel reply eff).1 = "Auto-accept enabled for this session." ++ r)
    ∧ (ask env fuel reply eff).2.st.auto_rounds_remaining = eff.st.auto_rounds_remaining := by
  have hask : ask env fuel reply eff
      = handleCommandConfirmation env fuel (pyStrip reply) eff := by
    unfold ask
    rw [hpend]
    simp [hc]
  have hchoice : pyLower (pyStrip (pyStrip reply)) = "a"
      ∨ pyLower (pyStrip (pyStrip reply)) = "auto"
      ∨ pyLower (pyStrip (pyStrip reply)) = "auto yes"
      ∨ pyLower (pyStrip (pyStrip reply)) = "auto-yes" := by
    rw [pyStrip_idem]; exact hauto
  rw [hask]
  unfold handleCommandConfirmation
  rw [hpend]
  simp only []
  rw [if_neg hc]
  rcases hchoice with h | h | h | h <;>
  · rw [h]
    rw [if_neg (by decide), if_pos (by decide)]
    refine ⟨((executeWithFollowup_extends env fuel c none _).1).1,
      ?_, executeWithFollowup_backendCalls env fuel c none _, ?_,
      ((executeWithFollowup_extends env fuel c none _).1).2.1⟩
    · rw [((executeWithFollowup_extends env fuel c none _).1).2.2.1]
      exact alGet_alSet_self _ _ _
    · exact ifMsg_startsWith _ _

/-- C1 witness: reply `a` on a session with pending command `bt`. -/
theorem c1_witness :
    (effOf stC1).st.pending_command = some "bt"
    ∧ pyLower (pyStrip " A ") = "a"
    ∧ (ask envNoProv 2 " A " (effOf stC1)).2.st.auto_accept_commands = true
    ∧ (∃ r, (ask envNoProv 2 " A " (effOf stC1)).1
        = "Auto-accept enabled for this session." ++ r)
    ∧ (ask envNoProv 2 " A " (effOf stC1)).2.st.auto_rounds_remaining
        = (effOf stC1).st.auto_rounds_remaining := by
  have h := c1_theorem envNoProv 2 " A " (effOf stC1) "bt" rfl (by decide)
    (Or.inl (by decide))
  exact ⟨rfl, by decide, h.1, h.2.2.2.1, h.2.2.2.2⟩

end DbgCopilot

namespace DbgCopilot

/-! ### C5: the overflow guard -/

/-- C5: with no pending command and a reply that is not one of the
session-rotation choices, the overflow handling triggers exactly on
`len(join(chatlog + [user line])) > max_context_chars`: above the limit
`ask` returns the fixed choice prompt and touches nothing but
`last_answer_streamed` (in particular the provider is not called); at or
below the limit a resolvable provider is dispatched with the composed
primed question as the next provider call. -/
theorem c5_theorem (env : OrchEnv) (fuel : Nat) (q : String) (eff : OrchEff)
    (hpend : eff.st.pending_command = none)
    (hrot : ¬ RotChoice (pyStrip q)) :
    ((String.intercalate "\n"
        (eff.st.chatlog ++ ["User: " ++ pyStrip q])).length > env.cfg.maxContextChars →
      ask env (fuel+1) q eff
        = (overflowPromptMsg, { eff with st := { eff.st with last_answer_streamed := false } }))
    ∧ ((String.intercalate "\n"
        (eff.st.chatlog ++ ["User: " ++ pyStrip q])).length ≤ env.cfg.maxContextChars →
      ∀ p client, resolveProviderName eff.st = some p → p ≠ "" →
        env.providers p = some client →
        ∃ rest, (ask env (fuel+1) q eff).2.providerCalls
          = eff.providerCalls
            ++ primedQuestion env { eff.st with last_answer_streamed := false }
                (pyStrip q) :: rest) := by
  have hask : ask env (fuel+1) q eff = llmTurn env (fuel+1) (pyStrip q) eff := by
    unfold ask
    rw [hpend]
  have hn1 : ¬(pyLower (pyStrip q) = "summarize and new session"
      ∨ pyLower (pyStrip q) = "summarise and new session") := by
    rintro (h | h) <;> exact hrot (by unfold RotChoice rotLits; rw [h]; simp)
  have hn2 : ¬(pyLower (pyStrip q) = "new session"
      ∨ pyLower (pyStrip q) = "start new session" ∨ pyLower (pyStrip q) = "new") := by
    rintro (h | h | h) <;> exact hrot (by unfold RotChoice rotLits; rw [h]; simp)
  constructor
  · intro hgt
    rw [hask]
    simp only [llmTurn, pyStrip_idem]
    rw [if_pos hgt, if_neg hn1, if_neg hn2]
  · intro hle p client hres hp hcli
    rw [hask]
    simp only [llmTurn, pyStrip_idem]
    rw [if_neg (not_lt.mpr hle)]
    rw [resolveProviderName_reset, hres]
    dsimp only
    rw [if_neg hp, hcli]
    dsimp only
    exact llmTurnDispatch_providerCalls env _ (pyStrip q) client _
      (fun q2 e2 => llmTurn_extends env fuel q2 e2)

/-- C5 witness: the guard fires on a tiny budget and returns the choice
prompt; below the budget the mock provider is dispatched. -/
theorem c5_witness :
    (¬ RotChoice (pyStrip "tell me more"))
    ∧ ask envTiny 1 "tell me more" (effOf stC3)
        = (overflowPromptMsg,
           { effOf stC3 with st := { stC3 with last_answer_streamed := false } })
    ∧ (∃ rest, (ask envAuto 4 "why did it crash" (effOf stC2)).2.providerCalls
        = primedQuestion envAuto { stC2 with last_answer_streamed := false }
            (pyStrip "why did it crash") :: rest) := by
  refine ⟨by decide, ?_, ?_⟩
  · exact (c5_theorem envTiny 0 "tell me more" (effOf stC3) rfl (by decide)).1 (by decide)
  · obtain ⟨rest, hrest⟩ := (c5_theorem envAuto 3 "why did it crash" (effOf stC2) rfl
      (by decide)).2 (by decide) "mock" mockReply rfl (by decide) (by simp [envAuto, envNoProv])
    exact ⟨rest, by simpa using hrest⟩

end DbgCopilot

namespace DbgCopilot

/-! ### C3: chatlog shape of a non-rotating turn -/

theorem pyStrip_head_cons (s : String) (c : Char) (rest : List Char)
    (hs : s.data = c :: rest) (hc : isPyWhitespace c = false) :
    ∃ t, (pyStrip s).data = c :: t := by
  unfold pyStrip
  rw [hs]
  rw [List.dropWhile_cons]
  simp only [hc, Bool.false_eq_true, if_false, List.reverse_cons]
  rw [List.dropWhile_append]
  split
  · rw [List.dropWhile_cons]
    simp [hc]
  · exact ⟨(List.dropWhile isPyWhitespace rest.reverse).reverse, by simp⟩

theorem followup_not_rot (c o : String) :
    ¬ RotChoice (pyStrip (buildFollowupPrompt c o)) := by
  intro hmem
  have hd : (buildFollowupPrompt c o).data
      = 'T' :: ("he debugger command `".data
        ++ (c ++ "` was executed.\n" ++ "Debugger output:\n"
            ++ (if stripAnsi o ≠ "" then stripAnsi o else "(no output)") ++ "\n"
            ++ "What should we do next? Remember to wrap any future debugger commands inside <cmd>...</cmd>.").data) := by
    show ("The debugger command `" ++ c ++ "` was executed.\n" ++ "Debugger output:\n"
        ++ (if stripAnsi o ≠ "" then stripAnsi o else "(no output)") ++ "\n"
        ++ "What should we do next? Remember to wrap any future debugger commands inside <cmd>...</cmd>.").data = _
    simp only [String.data_append, List.append_assoc]
    rfl
  obtain ⟨t, ht⟩ := pyStrip_head_cons (buildFollowupPrompt c o) 'T' _ hd (by decide)
  have hlowdata : (pyLower (pyStrip (buildFollowupPrompt c o))).data
      = 't' :: t.map Char.toLower := by
    unfold pyLower
    rw [ht]
    rfl
  have hhead : ∀ (u : String), u.data = 't' :: t.map Char.toLower →
      u ∈ rotLits → False := by
    intro u hu hmem2
    have h5 : u = "summarize and new session" ∨ u = "summarise and new session"
        ∨ u = "new session" ∨ u = "start new session" ∨ u = "new" := by
      simpa [rotLits] using hmem2
    rcases h5 with h | h | h | h | h <;>
      (subst h; injection hu with h1 h2; exact absurd h1 (by decide))
  exact hhead _ hlowdata hmem

end DbgCopilot

namespace DbgCopilot

theorem chatlogExt_refl (e : OrchEff) : ChatlogExt e e :=
  ⟨[], by simp, fun l hl => absurd hl (List.not_mem_nil l)⟩

theorem chatlogExt_trans {a b c : OrchEff} (h1 : ChatlogExt a b) (h2 : ChatlogExt b c) :
    ChatlogExt a c := by
  obtain ⟨t1, ht1, hl1⟩ := h1
  obtain ⟨t2, ht2, hl2⟩ := h2
  refine ⟨t1 ++ t2, by rw [ht2, ht1, List.append_assoc], ?_⟩
  intro l hl
  rcases List.mem_append.mp hl with h | h
  · exact hl1 l h
  · exact hl2 l h

theorem emitChat_chatlog (X : OrchEff) (t : String) (c : Option String) :
    (emitChat X t c).2.st.chatlog = X.st.chatlog := by
  simp only [emitChat]
  repeat' split
  all_goals rfl

theorem executedLine_ok (c out : String) :
    lineOk ("Assistant: (executed) " ++ c ++ "\n" ++ out) := by
  refine Or.inr ⟨"(executed) " ++ c ++ "\n" ++ out, ?_⟩
  simp only [← String.append_assoc]
  rfl

theorem executeOnce_chatlog (env : OrchEnv) (X : OrchEff) (c : String) :
    (executeOnce env X c).2.st.chatlog = X.st.chatlog
      ++ ["Assistant: (executed) " ++ c ++ "\n" ++ executeAndFormat env c X.st.colors_enabled] := by
  simp only [executeOnce]
  repeat' split
  all_goals rfl

theorem executeOnce_chatlogExt (env : OrchEnv) (X : OrchEff) (c : String) :
    ChatlogExt X (executeOnce env X c).2 := by
  refine ⟨["Assistant: (executed) " ++ c ++ "\n" ++ executeAndFormat env c X.st.colors_enabled],
    executeOnce_chatlog env X c, ?_⟩
  intro l hl
  rw [List.mem_singleton] at hl
  rw [hl]
  exact executedLine_ok c _

theorem eWFCore_chatlogExt (env : OrchEnv) (turn : String → OrchEff → String × OrchEff)
    (c : String) (pre : Option String) (eff : OrchEff)
    (hturn : ∀ q2 e2, ¬ RotChoice (pyStrip q2) → ChatlogExt e2 (turn q2 e2).2) :
    ChatlogExt eff (executeWithFollowupCore env turn c pre eff).2 := by
  unfold executeWithFollowupCore
  exact chatlogExt_trans (executeOnce_chatlogExt env eff c)
    (hturn _ _ (followup_not_rot c _))

theorem extChat_emit {eff X : OrchEff} {t : String} {c : Option String}
    (h : ChatlogExt eff X) : ChatlogExt eff (emitChat X t c).2 := by
  obtain ⟨t0, ht0, hl0⟩ := h
  exact ⟨t0, by rw [emitChat_chatlog, ht0], hl0⟩

theorem extChat_setPending {eff X : OrchEff} (p : Option String)
    (h : ChatlogExt eff X) :
    ChatlogExt eff { X with st := { X.st with pending_command := p } } := by
  obtain ⟨t0, ht0, hl0⟩ := h
  exact ⟨t0, ht0, hl0⟩

theorem extChat_format {eff X : OrchEff} (env : OrchEnv) (a c : String)
    (h : ChatlogExt eff X) :
    ChatlogExt eff (formatConfirmationPrompt env X a c).2 := by
  obtain ⟨t0, ht0, hl0⟩ := h
  exact ⟨t0, ht0, hl0⟩

theorem extChat_eWFCore {eff X : OrchEff} (env : OrchEnv)
    (turn : String → OrchEff → String × OrchEff) (c : String) (pre : Option String)
    (hturn : ∀ q2 e2, ¬ RotChoice (pyStrip q2) → ChatlogExt e2 (turn q2 e2).2)
    (h : ChatlogExt eff X) :
    ChatlogExt eff (executeWithFollowupCore env turn c pre X).2 :=
  chatlogExt_trans h (eWFCore_chatlogExt env turn c pre X hturn)

set_option maxHeartbeats 1000000 in
theorem llmTurnDispatch_chatlogExt (env : OrchEnv)
    (turn : String → OrchEff → String × OrchEff) (q : String)
    (client : String → String) (eff : OrchEff)
    (hturn : ∀ q2 e2, ¬ RotChoice (pyStrip q2) → ChatlogExt e2 (turn q2 e2).2) :
    ChatlogExt eff (llmTurnDispatch env turn q client eff).2 := by
  have leafC : ChatlogExt eff { eff with
      providerCalls := eff.providerCalls ++ [primedQuestion env eff.st q],
      st := { eff.st with
        chatlog := eff.st.chatlog
          ++ ["User: " ++ pyStrip q,
              "Assistant: " ++ pyStrip (client (primedQuestion env eff.st q))],
        facts := eff.st.facts
          ++ ["Q: " ++ pyStrip q,
              "A: " ++ pyStrip ((pySplitlines (client (primedQuestion env eff.st q))).headD "")] } } := by
    refine ⟨["User: " ++ pyStrip q,
             "Assistant: " ++ pyStrip (client (primedQuestion env eff.st q))], rfl, ?_⟩
    intro l hl
    simp only [List.mem_cons, List.not_mem_nil, or_false] at hl
    rcases hl with h | h
    · rw [h]
      exact Or.inl ⟨pyStrip q, rfl⟩
    · rw [h]
      exact Or.inr ⟨_, rfl⟩
  simp only [llmTurnDispatch]
  split
  · split
    · repeat' split
      all_goals
        first
        | exact extChat_eWFCore env turn _ _ hturn (extChat_emit leafC)
        | exact extChat_eWFCore env turn _ _ hturn leafC
    · repeat' split
      all_goals
        first
        | exact extChat_format env _ _ (extChat_setPending _ (extChat_emit leafC))
        | exact extChat_format env _ _ (extChat_setPending _ leafC)
  · repeat' split
    all_goals
      first
      | exact extChat_emit leafC
      | exact leafC

set_option maxHeartbeats 4000000 in
theorem llmTurn_chatlogExt (env : OrchEnv) (fuel : Nat) (q : String) (eff : OrchEff)
    (hq : ¬ RotChoice (pyStrip q)) :
    ChatlogExt eff (llmTurn env fuel q eff).2 := by
  induction fuel generalizing q eff with
  | zero => exact chatlogExt_refl eff
  | succ n ih =>
    have hn1 : ¬(pyLower (pyStrip q) = "summarize and new session"
        ∨ pyLower (pyStrip q) = "summarise and new session") := by
      rintro (h | h) <;> exact hq (by unfold RotChoice rotLits; rw [h]; simp)
    have hn2 : ¬(pyLower (pyStrip q) = "new session"
        ∨ pyLower (pyStrip q) = "start new session" ∨ pyLower (pyStrip q) = "new") := by
      rintro (h | h | h) <;> exact hq (by unfold RotChoice rotLits; rw [h]; simp)
    simp only [llmTurn]
    rw [if_neg hn1, if_neg hn2]
    split
    · exact chatlogExt_refl _
    · split
      · exact chatlogExt_refl _
      · split
        · exact chatlogExt_refl _
        · split
          · exact chatlogExt_refl _
          · exact llmTurnDispatch_chatlogExt env _ q _ _
              (fun q2 e2 hq2 => ih q2 e2 hq2)

theorem executeWithFollowup_chatlogExt (env : OrchEnv) (fuel : Nat) (c : String)
    (pre : Option String) (eff : OrchEff) :
    ChatlogExt eff (executeWithFollowup env fuel c pre eff).2 :=
  eWFCore_chatlogExt env _ c pre eff
    (fun q2 e2 hq2 => llmTurn_chatlogExt env fuel q2 e2 hq2)

theorem handleCommandConfirmation_chatlogExt (env : OrchEnv) (fuel : Nat)
    (reply : String) (eff : OrchEff) (hq : ¬ RotChoice (pyStrip reply)) :
    ChatlogExt eff (handleCommandConfirmation env fuel reply eff).2 := by
  have hllm : ∀ e2 : OrchEff, e2.st.chatlog = eff.st.chatlog →
      ChatlogExt eff (llmTurn env fuel reply e2).2 := by
    intro e2 he2
    obtain ⟨t, ht, hl⟩ := llmTurn_chatlogExt env fuel reply e2 hq
    exact ⟨t, by rw [ht, he2], hl⟩
  have heWF : ∀ e2 : OrchEff, e2.st.chatlog = eff.st.chatlog → ∀ c pre,
      ChatlogExt eff (executeWithFollowup env fuel c pre e2).2 := by
    intro e2 he2 c pre
    obtain ⟨t, ht, hl⟩ := executeWithFollowup_chatlogExt env fuel c pre e2
    exact ⟨t, by rw [ht, he2], hl⟩
  simp only [handleCommandConfirmation]
  split
  · apply hllm
    rfl
  · split
    · apply hllm
      rfl
    · split
      · refine heWF _ ?_ _ none
        rfl
      · split
        · refine heWF _ ?_ _ none
          rfl
        · exact chatlogExt_refl _

/-- C3 (amended): a call to `ask` whose trimmed, lowercased text is not a
session-rotation reply appends only `User: ` / `Assistant: ` lines
(including the `(executed)` entries) to the chatlog, so the chatlog
length is non-decreasing. -/
theorem c3_theorem (env : OrchEnv) (fuel : Nat) (q : String) (eff : OrchEff)
    (hq : ¬ RotChoice (pyStrip q)) :
    ∃ t, (ask env fuel q eff).2.st.chatlog = eff.st.chatlog ++ t
      ∧ (∀ l ∈ t, lineOk l)
      ∧ eff.st.chatlog.length ≤ (ask env fuel q eff).2.st.chatlog.length := by
  have hq2 : ¬ RotChoice (pyStrip (pyStrip q)) := by rw [pyStrip_idem]; exact hq
  have main : ChatlogExt eff (ask env fuel q eff).2 := by
    unfold ask
    split
    · split
      · exact handleCommandConfirmation_chatlogExt env fuel (pyStrip q) eff hq2
      · exact llmTurn_chatlogExt env fuel (pyStrip q) eff hq2
    · exact llmTurn_chatlogExt env fuel (pyStrip q) eff hq2
  obtain ⟨t, ht, hl⟩ := main
  exact ⟨t, ht, hl, by rw [ht]; simp⟩

/-- C3 witness: an auto-mode turn that proposes and executes `bt` grows
the chatlog with well-shaped lines only. -/
theorem c3_witness :
    (¬ RotChoice (pyStrip "why did it crash"))
    ∧ ∃ t, (ask envAuto 4 "why did it crash" (effOf stC2)).2.st.chatlog
        = (effOf stC2).st.chatlog ++ t
      ∧ (∀ l ∈ t, lineOk l)
      ∧ (effOf stC2).st.chatlog.length
          ≤ (ask envAuto 4 "why did it crash" (effOf stC2)).2.st.chatlog.length := by
  exact ⟨by decide, c3_theorem envAuto 4 "why did it crash" (effOf stC2) (by decide)⟩

end DbgCopilot

namespace DbgCopilot

/-! ### C9: empty or whitespace-only input to the backends -/

theorem ws_of_strip_nil (l : List Char)
    (h : (l.dropWhile isPyWhitespace).reverse.dropWhile isPyWhitespace = []) :
    ∀ c ∈ l, isPyWhitespace c := by
  induction l with
  | nil => intro c hc; cases hc
  | cons x tl ih =>
    by_cases hx : isPyWhitespace x
    · rw [List.dropWhile_cons_of_pos hx] at h
      intro c hc
      rcases List.mem_cons.mp hc with rfl | hc
      · exact hx
      · exact ih h c hc
    · rw [List.dropWhile_cons_of_neg hx] at h
      exact absurd (List.dropWhile_eq_nil_iff.mp h x (by simp)) hx

theorem ws_of_pyStrip_empty (s : String) (h : pyStrip s = "") :
    ∀ c ∈ s.data, isPyWhitespace c := by
  have hd : ((s.data.dropWhile isPyWhitespace).reverse.dropWhile isPyWhitespace).reverse
      = [] := congrArg String.data h
  rw [List.reverse_eq_nil_iff] at hd
  exact ws_of_strip_nil s.data hd

theorem pyStrip_empty_of_ws (s : String) (h : ∀ c ∈ s.data, isPyWhitespace c) :
    pyStrip s = "" := by
  unfold pyStrip
  rw [List.dropWhile_eq_nil_iff.mpr h]
  rfl

theorem replaceAux_ws (fuel : Nat) (cs : List Char) (h : ∀ c ∈ cs, isPyWhitespace c) :
    ∀ c ∈ pyReplaceAux "\r".data "\n".data fuel cs, isPyWhitespace c := by
  induction fuel generalizing cs with
  | zero => exact h
  | succ n ih =>
    match cs with
    | [] => exact h
    | x :: rest =>
      simp only [pyReplaceAux]
      split
      · intro c hc
        rcases List.mem_append.mp hc with hc | hc
        · simp only [List.mem_singleton.mp hc]; decide
        · exact ih _ (fun d hd => h d (List.mem_cons_of_mem x (by simpa using hd))) c hc
      · intro c hc
        rcases List.mem_cons.mp hc with rfl | hc
        · exact h c (by simp)
        · exact ih _ (fun d hd => h d (List.mem_cons_of_mem x hd)) c hc

theorem splitAux_ws (sep : Char) (l acc : List Char)
    (hl : ∀ c ∈ l, isPyWhitespace c) (hacc : ∀ c ∈ acc, isPyWhitespace c) :
    ∀ chunk ∈ splitOnCharAux sep l acc, ∀ c ∈ chunk, isPyWhitespace c := by
  induction l generalizing acc with
  | nil =>
    intro chunk hchunk c hc
    simp only [splitOnCharAux, List.mem_singleton] at hchunk
    subst hchunk
    exact hacc c (List.mem_reverse.mp hc)
  | cons x rest ih =>
    intro chunk hchunk c hc
    simp only [splitOnCharAux] at hchunk
    split at hchunk
    · rcases List.mem_cons.mp hchunk with rfl | hchunk
      · exact hacc c (List.mem_reverse.mp hc)
      · exact ih [] (fun d hd => hl d (List.mem_cons_of_mem x hd)) (by simp) chunk hchunk c hc
    · exact ih (x :: acc) (fun d hd => hl d (List.mem_cons_of_mem x hd))
        (fun d hd => by
          rcases List.mem_cons.mp hd with rfl | hd
          · exact hl d (by simp)
          · exact hacc d hd) chunk hchunk c hc

theorem splitAux_no_sep (sep : Char) (l acc : List Char) (h : ∀ c ∈ l, c ≠ sep) :
    splitOnCharAux sep l acc = [acc.reverse ++ l] := by
  induction l generalizing acc with
  | nil => simp [splitOnCharAux]
  | cons x rest ih =>
    simp only [splitOnCharAux]
    rw [if_neg (h x (by simp))]
    rw [ih (x :: acc) (fun d hd => h d (List.mem_cons_of_mem x hd))]
    simp

theorem gdbSplitParts_of_ws (cmd : String) (hws : pyStrip cmd = "") :
    gdbSplitParts cmd = [""] := by
  have hall := ws_of_pyStrip_empty cmd hws
  have hrep : ∀ c ∈ (pyReplace cmd "\r" "\n").data, isPyWhitespace c :=
    replaceAux_ws cmd.data.length cmd.data hall
  have hparts : (pySplitOnChar '\n' (pyReplace cmd "\r" "\n")).flatMap
      (fun chunk => (((pySplitOnChar ';' chunk).map pyStrip).filter (· ≠ ""))) = [] := by
    rw [List.flatMap_eq_nil_iff]
    intro chunk hchunk
    obtain ⟨cl, hcl, rfl⟩ := List.mem_map.mp hchunk
    have hclws : ∀ c ∈ cl, isPyWhitespace c :=
      splitAux_ws '\n' (pyReplace cmd "\r" "\n").data [] hrep (by simp) cl hcl
    have hnosep : ∀ c ∈ cl, c ≠ ';' := by
      intro c hc hce
      have hcw := hclws c hc
      rw [hce] at hcw
      exact absurd hcw (by decide)
    have h1 : pySplitOnChar ';' (String.mk cl) = [String.mk cl] := by
      unfold pySplitOnChar
      rw [show (String.mk cl).data = cl from rfl, splitAux_no_sep ';' cl [] hnosep]
      simp
    rw [h1]
    have h2 : pyStrip (String.mk cl) = "" := pyStrip_empty_of_ws _ hclws
    simp [h2]
  simp only [gdbSplitParts]
  rw [hparts]
  simp [hws]

theorem lldbSplitParts_of_ws (cmd : String) (hws : pyStrip cmd = "") :
    lldbSplitParts cmd = [""] := by
  simp only [lldbSplitParts, hws]
  rfl

theorem gdbRunLoop_ws_sends (env : GdbEnv) : (gdbRunLoop env [""]).2 = [""] := by
  cases h : env.send "" <;>
    simp [gdbRunLoop, h, gdbExitCommands, pyLower]

theorem lldbRunLoop_ws_sends (env : LldbEnv) (st : LldbState) :
    (lldbRunLoop env [""] st).2.2 = [""] := by
  cases h : env.send "" <;>
    simp only [lldbRunLoop, h] <;>
    (try split) <;>
    (try split) <;>
    simp [lldbRunLoop]

set_option maxHeartbeats 1600000

/-- C9 (amended): a whitespace-only command makes the radare2 backend
return the empty string without sending anything, while the gdb and lldb
subprocess backends fall back to `parts = [cmd.strip()]` and send the
single empty command to their child. -/
theorem c9_theorem (cmd : String) (hws : pyStrip cmd = "")
    (genv : GdbEnv) (lenv : LldbEnv) (lst : LldbState)
    (renv : R2Env) (rst : R2State) :
    r2RunCommand renv rst cmd = ("", rst, [])
    ∧ (gdbRunCommand genv cmd).2 = [""]
    ∧ (lldbRunCommand lenv lst cmd).2.2 = [""] := by
  refine ⟨?_, ?_, ?_⟩
  · simp [r2RunCommand, hws]
  · have hs := gdbRunLoop_ws_sends genv
    simp only [gdbRunCommand, gdbSplitParts_of_ws cmd hws]
    rcases hr : gdbRunLoop genv [""] with ⟨os, ss⟩
    rw [hr] at hs
    simpa using hs
  · have hs := lldbRunLoop_ws_sends lenv lst
    unfold lldbRunCommand
    rw [lldbSplitParts_of_ws cmd hws]
    rcases hr : lldbRunLoop lenv [""] lst with ⟨os, st2, ss⟩
    rw [hr] at hs
    dsimp only
    split <;> simpa using hs

/-- C9 witness: on the whitespace command `" \t "`, radare2 returns empty
with no sends while gdb and lldb each send one empty command. -/
theorem c9_witness :
    pyStrip " \t " = ""
    ∧ (r2RunCommand r2EnvConst ⟨0, 0, "radare2> "⟩ " \t "
        = ("", (⟨0, 0, "radare2> "⟩ : R2State), [])
      ∧ (gdbRunCommand gdbEnvOkEmpty " \t ").2 = [""]
      ∧ (lldbRunCommand lldbEnvConst ⟨0, true⟩ " \t ").2.2 = [""]) :=
  ⟨by decide,
   c9_theorem " \t " (by decide) gdbEnvOkEmpty lldbEnvConst ⟨0, true⟩
     r2EnvConst ⟨0, 0, "radare2> "⟩⟩

end DbgCopilot

namespace DbgCopilot

/-! ### C6: first-match `<cmd>` extraction and its use at both call sites -/

theorem eq_lt_of_toLower_eq (c : Char) (h : c.toLower = '<') : c = '<' := by
  unfold Char.toLower at h
  by_cases h2 : 65 ≤ c.toNat ∧ c.toNat ≤ 90
  · rw [if_pos h2] at h
    have hv : (c.toNat + 32).isValidChar := Or.inl (by omega)
    have h3 : (Char.ofNat (c.toNat + 32)).toNat = c.toNat + 32 := by
      rw [Char.ofNat, dif_pos hv]
      rfl
    have h4 : (Char.ofNat (c.toNat + 32)).toNat = ('<' : Char).toNat := by rw [h]
    rw [h3] at h4
    have h5 : ('<' : Char).toNat = 60 := by decide
    omega
  · rwa [if_neg h2] at h

theorem lt_not_mem_map_toLower (l : List Char) (h : '<' ∉ l) :
    '<' ∉ l.map Char.toLower := by
  intro hm
  obtain ⟨x, hx, he⟩ := List.mem_map.mp hm
  exact h ((eq_lt_of_toLower_eq x he) ▸ hx)

theorem isPrefixOf_append_self (l rest : List Char) : l.isPrefixOf (l ++ rest) = true := by
  induction l with
  | nil => simp [List.isPrefixOf]
  | cons c tl ih => simp [List.isPrefixOf, ih]

theorem firstIdxOf_head_not_mem (n0 : Char) (ntl l : List Char) (h : n0 ∉ l) :
    firstIdxOf (n0 :: ntl) l = none := by
  induction l with
  | nil => rfl
  | cons c rest ih =>
    have hne : (n0 :: ntl).isPrefixOf (c :: rest) = false := by
      simp only [List.isPrefixOf, Bool.and_eq_false_iff]
      left
      simp only [beq_eq_false_iff_ne, ne_eq]
      intro he
      exact h (he ▸ List.mem_cons_self c rest)
    rw [firstIdxOf, if_neg (by simp [hne]), ih (fun hm => h (List.mem_cons_of_mem c hm))]
    rfl

theorem firstIdxOf_append_drop (n0 : Char) (ntl pre rest : List Char) (h : n0 ∉ pre) :
    firstIdxOf (n0 :: ntl) (pre ++ rest)
      = (firstIdxOf (n0 :: ntl) rest).map (· + pre.length) := by
  induction pre with
  | nil =>
    simp only [List.nil_append, List.length_nil]
    cases firstIdxOf (n0 :: ntl) rest <;> simp
  | cons c pre2 ih =>
    have hne : (n0 :: ntl).isPrefixOf (c :: (pre2 ++ rest)) = false := by
      simp only [List.isPrefixOf, Bool.and_eq_false_iff]
      left
      simp only [beq_eq_false_iff_ne, ne_eq]
      intro he
      exact h (he ▸ List.mem_cons_self c pre2)
    rw [List.cons_append, firstIdxOf, if_neg (by simp [hne]),
      ih (fun hm => h (List.mem_cons_of_mem c hm))]
    cases firstIdxOf (n0 :: ntl) rest <;> simp
    omega

theorem firstIdxOf_self_append (n0 : Char) (ntl rest : List Char) :
    firstIdxOf (n0 :: ntl) ((n0 :: ntl) ++ rest) = some 0 := by
  rw [List.cons_append, firstIdxOf, if_pos]
  rw [← List.cons_append]
  exact isPrefixOf_append_self (n0 :: ntl) rest

theorem extractCmdTag_none_of_no_lt (s : String) (h : '<' ∉ s.data) :
    extractCmdTag s = none := by
  simp only [extractCmdTag]
  rw [firstIdxOf_head_not_mem '<' ['c', 'm', 'd', '>'] _ (lt_not_mem_map_toLower s.data h)]

theorem extractCmdTag_first (u v w : String) (hu : '<' ∉ u.data) (hv : '<' ∉ v.data) :
    extractCmdTag (u ++ "<cmd>" ++ v ++ "</cmd>" ++ w) = some (pyStrip v) := by
  have hdata : (u ++ "<cmd>" ++ v ++ "</cmd>" ++ w).data
      = u.data ++ (['<', 'c', 'm', 'd', '>']
          ++ (v.data ++ (['<', '/', 'c', 'm', 'd', '>'] ++ w.data))) := by
    simp only [String.data_append, List.append_assoc]
  have hlow : (u ++ "<cmd>" ++ v ++ "</cmd>" ++ w).data.map Char.toLower
      = u.data.map Char.toLower ++ (['<', 'c', 'm', 'd', '>']
          ++ (v.data.map Char.toLower
              ++ (['<', '/', 'c', 'm', 'd', '>'] ++ w.data.map Char.toLower))) := by
    rw [hdata]
    simp only [List.map_append]
    rfl
  have h1 : firstIdxOf ['<', 'c', 'm', 'd', '>']
        ((u ++ "<cmd>" ++ v ++ "</cmd>" ++ w).data.map Char.toLower)
      = some u.data.length := by
    rw [hlow,
      firstIdxOf_append_drop '<' ['c', 'm', 'd', '>'] _ _ (lt_not_mem_map_toLower u.data hu),
      firstIdxOf_self_append]
    simp
  have hdrop : (((u ++ "<cmd>" ++ v ++ "</cmd>" ++ w).data.map Char.toLower).drop
        (u.data.length + 5))
      = v.data.map Char.toLower ++ (['<', '/', 'c', 'm', 'd', '>']
          ++ w.data.map Char.toLower) := by
    rw [hlow, ← List.append_assoc]
    have hlen : (u.data.map Char.toLower ++ ['<', 'c', 'm', 'd', '>']).length
        = u.data.length + 5 := by simp
    rw [← hlen, List.drop_left]
  have h2 : firstIdxOf ['<', '/', 'c', 'm', 'd', '>']
        (((u ++ "<cmd>" ++ v ++ "</cmd>" ++ w).data.map Char.toLower).drop (u.data.length + 5))
      = some v.data.length := by
    rw [hdrop,
      firstIdxOf_append_drop '<' ['/', 'c', 'm', 'd', '>'] _ _ (lt_not_mem_map_toLower v.data hv),
      firstIdxOf_self_append]
    simp
  have hdrop2 : ((u ++ "<cmd>" ++ v ++ "</cmd>" ++ w).data.drop (u.data.length + 5))
      = v.data ++ (['<', '/', 'c', 'm', 'd', '>'] ++ w.data) := by
    rw [hdata, ← List.append_assoc]
    have hlen : (u.data ++ ['<', 'c', 'm', 'd', '>']).length = u.data.length + 5 := by simp
    rw [← hlen, List.drop_left]
  have htake : (v.data ++ (['<', '/', 'c', 'm', 'd', '>'] ++ w.data)).take v.data.length
      = v.data := List.take_left v.data _
  simp only [extractCmdTag, h1, h2, hdrop2, htake]

theorem emitChat_backendCalls (eff : OrchEff) (t : String) (c : Option String) :
    ((emitChat eff t c).2).backendCalls = eff.backendCalls := by
  simp only [emitChat]
  repeat' split
  all_goals rfl

theorem llmTurnDispatch_backendCalls_none (env : OrchEnv)
    (turn : String → OrchEff → String × OrchEff) (q : String)
    (client : String → String) (eff : OrchEff)
    (h : extractCmdTag (client (primedQuestion env eff.st q)) = none) :
    (llmTurnDispatch env turn q client eff).2.backendCalls = eff.backendCalls := by
  simp only [llmTurnDispatch, h]
  repeat' split
  all_goals simp [emitChat_backendCalls]

set_option maxHeartbeats 2000000 in
theorem llmTurnDispatch_backendCalls_auto (env : OrchEnv) (fuel : Nat)
    (q c0 : String) (client : String → String) (eff : OrchEff)
    (h : extractCmdTag (client (primedQuestion env eff.st q)) = some c0)
    (hauto : eff.st.auto_accept_commands = true) :
    ∃ l, (llmTurnDispatch env (fun q2 e2 => llmTurn env fuel q2 e2) q client eff).2.backendCalls
      = eff.backendCalls ++ c0 :: l := by
  have key : ∀ e2 : OrchEff, e2.backendCalls = eff.backendCalls →
      ∀ pre : Option String,
      ∃ l, (executeWithFollowupCore env (fun q2 e2 => llmTurn env fuel q2 e2)
          c0 pre e2).2.backendCalls
        = eff.backendCalls ++ c0 :: l := by
    intro e2 he2 pre
    obtain ⟨l, hl⟩ := eWFCore_backendCalls env _ c0 pre e2
      (fun q2 e3 => llmTurn_extends env fuel q2 e3)
    exact ⟨l, by rw [hl, he2]⟩
  simp only [llmTurnDispatch, h]
  repeat' split
  all_goals first
    | exact key _ (by simp [emitChat_backendCalls]) _
    | exact key _ rfl _
    | exact absurd hauto (by assumption)

/-- C6: both extraction sites use the first case-insensitive
`<cmd>...</cmd>` match with its content stripped: on a reply
`u<cmd>v</cmd>w` with no earlier `<` the extracted command is the
stripped `v` even when `w` holds further tags; with no match nothing is
extracted; the orchestrator auto turn sends the extracted command to the
backend first and a matchless reply triggers no backend call; the agent
driver executes exactly the extracted command and executes nothing on a
matchless reply. -/
theorem c6_theorem (u v w s2 q : String)
    (hu : '<' ∉ u.data) (hv : '<' ∉ v.data) (hs2 : '<' ∉ s2.data)
    (hvne : pyStrip v ≠ "")
    (hstrip : pyStrip (u ++ "<cmd>" ++ v ++ "</cmd>" ++ w)
      = u ++ "<cmd>" ++ v ++ "</cmd>" ++ w)
    (hstrip2 : pyStrip s2 = s2)
    (env : OrchEnv) (fuel : Nat) (client client2 : String → String) (eff : OrchEff)
    (turn : String → OrchEff → String × OrchEff)
    (hclient : client (primedQuestion env eff.st q) = u ++ "<cmd>" ++ v ++ "</cmd>" ++ w)
    (hclient2 : client2 (primedQuestion env eff.st q) = s2)
    (hauto : eff.st.auto_accept_commands = true)
    (backendRun : String → String) :
    extractCmdTag (u ++ "<cmd>" ++ v ++ "</cmd>" ++ w) = some (pyStrip v)
    ∧ agentExtractCmd (u ++ "<cmd>" ++ v ++ "</cmd>" ++ w) = some (pyStrip v)
    ∧ extractCmdTag s2 = none
    ∧ (∃ l, (llmTurnDispatch env (fun q2 e2 => llmTurn env fuel q2 e2)
          q client eff).2.backendCalls
        = eff.backendCalls ++ pyStrip v :: l)
    ∧ (llmTurnDispatch env turn q client2 eff).2.backendCalls = eff.backendCalls
    ∧ (agentHandleReply backendRun (u ++ "<cmd>" ++ v ++ "</cmd>" ++ w)).executed
        = [(pyStrip v, backendRun (pyStrip v))]
    ∧ (agentHandleReply backendRun s2).executed = [] := by
  have h1 := extractCmdTag_first u v w hu hv
  have h3 := extractCmdTag_none_of_no_lt s2 hs2
  refine ⟨h1, h1, h3, ?_, ?_, ?_, ?_⟩
  · exact llmTurnDispatch_backendCalls_auto env fuel q (pyStrip v) client eff
      (by rw [hclient]; exact h1) hauto
  · exact llmTurnDispatch_backendCalls_none env turn q client2 eff
      (by rw [hclient2]; exact h3)
  · simp only [agentHandleReply, agentExtractCmd, hstrip, h1]
    rw [if_pos hvne]
  · simp only [agentHandleReply, agentExtractCmd, hstrip2, h3]
    split <;> rfl

/-- C6 witness: the reply `Use: <cmd> bt </cmd> end <cmd>x</cmd>` yields
the stripped first command `bt` at both call sites, the auto turn sends
`bt` to the backend first, and the matchless reply `plain` extracts and
executes nothing. -/
theorem c6_witness :
    pyStrip " bt " ≠ ""
    ∧ extractCmdTag ("Use: " ++ "<cmd>" ++ " bt " ++ "</cmd>" ++ " end <cmd>x</cmd>")
        = some (pyStrip " bt ")
    ∧ extractCmdTag "plain" = none
    ∧ (∃ l, (llmTurnDispatch envAuto (fun q2 e2 => llmTurn envAuto 1 q2 e2) "why"
          (fun _ => "Use: " ++ "<cmd>" ++ " bt " ++ "</cmd>" ++ " end <cmd>x</cmd>")
          (effOf stC2)).2.backendCalls
        = (effOf stC2).backendCalls ++ pyStrip " bt " :: l)
    ∧ (llmTurnDispatch envAuto (fun _ e => ("", e)) "why" (fun _ => "plain")
        (effOf stC2)).2.backendCalls = (effOf stC2).backendCalls
    ∧ (agentHandleReply (fun c => "out: " ++ c)
        ("Use: " ++ "<cmd>" ++ " bt " ++ "</cmd>" ++ " end <cmd>x</cmd>")).executed
        = [(pyStrip " bt ", "out: " ++ pyStrip " bt ")]
    ∧ (agentHandleReply (fun c => "out: " ++ c) "plain").executed = [] := by
  have h := c6_theorem "Use: " " bt " " end <cmd>x</cmd>" "plain" "why"
    (by decide) (by decide) (by decide) (by decide) (by decide) (by decide)
    envAuto 1
    (fun _ => "Use: " ++ "<cmd>" ++ " bt " ++ "</cmd>" ++ " end <cmd>x</cmd>")
    (fun _ => "plain") (effOf stC2) (fun _ e => ("", e)) rfl rfl rfl
    (fun c => "out: " ++ c)
  exact ⟨by decide, h.1, h.2.2.1, h.2.2.2.1, h.2.2.2.2.1, h.2.2.2.2.2.1, h.2.2.2.2.2.2⟩

end DbgCopilot
